import Mathlib

/-!
# Camera capture and render loop of `public/app.js`

A shallow embedding of the browser script: the module variables (`cvReady`,
`useFilter`, `stream`, `rafId`), the parts of the page it touches (status line,
log, video element, canvas, camera selector) and the platform resources it
holds (scheduled animation-frame callbacks, live media tracks, buffers of the
vision library).  Every function of the script is a function on `State`; an
asynchronous function is cut at its `await`s into the pieces that run without
interruption, and the event loop is the function `step`.

Conventions.
* `log(msg)` prefixes the wall-clock time and appends a newline; the log is
  kept here as the list of the `msg` arguments, in order.
* What the browser or the vision library decides (whether a request resolves,
  which tracks a stream has, whether a call throws, the geometry of the video)
  is an argument of the function that consumes it.
-/

namespace SecurityCamera

/-! ## JavaScript values that can be thrown -/

/-- Primitive values other than symbols. A number (or bigint) is given by its
string form, the result of `String(x)`: "5249024", "0.5", "1e+21", "NaN",
"Infinity"; the string form of both zeros is "0". -/
inductive JsPrim where
  | undefined
  | null
  | bool (b : Bool)
  | num (repr : String)
  | str (s : String)
deriving DecidableEq, Repr

/-- A value the browser throws or rejects with (`getUserMedia`,
`enumerateDevices`: a `DOMException` or a `TypeError`), or a primitive: an
object is given by its `name` and `message` properties and the result of
`String(obj)`, all of which convert to strings. -/
inductive JsVal where
  | prim (p : JsPrim)
  | obj (name : JsPrim) (message : JsPrim) (str : String)
deriving DecidableEq, Repr

/-- JavaScript truthiness: `undefined`, `null`, `false`, the zeros, `NaN` and
the empty string are falsy. -/
def JsPrim.truthy : JsPrim → Bool
  | .undefined => false
  | .null => false
  | .bool b => b
  | .num repr => repr != "0" && repr != "NaN"
  | .str s => s != ""

/-- The conversion `String(p)`, also used by template literals and `+`. -/
def JsPrim.toStr : JsPrim → String
  | .undefined => "undefined"
  | .null => "null"
  | .bool true => "true"
  | .bool false => "false"
  | .num repr => repr
  | .str s => s

/-- The expression `err?.message` on a value of the browser: `undefined` on
`null` and `undefined`, and on the other primitives, which have no such
property. -/
def JsVal.optMessage : JsVal → JsPrim
  | .prim _ => .undefined
  | .obj _ message _ => message

/-- The `TypeError` a property read on `null` or `undefined` throws. -/
def typeErrorReading (p : JsPrim) (property : String) : JsVal :=
  let text := "Cannot read properties of " ++ p.toStr ++ " (reading \x27" ++ property ++ "\x27)"
  .obj (.str "TypeError") (.str text) ("TypeError: " ++ text)

/-- The expression `err.message`, without optional chaining: it throws on
`null` and `undefined`. -/
def JsVal.message : JsVal → Except JsVal JsPrim
  | .prim .undefined => .error (typeErrorReading .undefined "message")
  | .prim .null => .error (typeErrorReading .null "message")
  | .prim _ => .ok .undefined
  | .obj _ message _ => .ok message

/-- What reading a property of a thrown object can give: a primitive, a
symbol, or an object (or function), given by the result of its conversion to
a string, `none` when that conversion throws. -/
inductive JsProp where
  | prim (p : JsPrim)
  | symbol (description : String)
  | object (str : Option String)
deriving DecidableEq, Repr

/-- A property of a thrown object: what reading it gives (`undefined` when
the object has no such property), or an accessor whose getter throws `e`. -/
inductive JsSlot where
  | value (v : JsProp)
  | throwing (e : JsVal)
deriving DecidableEq, Repr

/-- Any value a `throw` can deliver, the vision library being free to throw
what it likes: a primitive, a symbol, or an object with its `name` and
`message` properties and the result of `String(obj)`, `none` when the
conversion throws (an object without prototype, as `Object.create(null)`
makes it, has no `toString`). -/
inductive Thrown where
  | prim (p : JsPrim)
  | symbol (description : String)
  | obj (name : JsSlot) (message : JsSlot) (str : Option String)
deriving DecidableEq, Repr

/-- A value of the browser, as a thrown value. -/
def JsVal.thrown : JsVal → Thrown
  | .prim p => .prim p
  | .obj name message str => .obj (.value (.prim name)) (.value (.prim message)) (some str)

/-- Reading a property: its value, or what its getter throws. -/
def JsSlot.read : JsSlot → Except Thrown JsProp
  | .value v => .ok v
  | .throwing e => .error e.thrown

/-- The `TypeError` of a conversion of an object that has no conversion to a
primitive. A conversion that throws is taken to throw this value. -/
def cannotConvertObject : Thrown :=
  .obj (.value (.prim (.str "TypeError")))
    (.value (.prim (.str "Cannot convert object to primitive value")))
    (some "TypeError: Cannot convert object to primitive value")

/-- The `TypeError` of the implicit conversion of a symbol to a string. -/
def cannotConvertSymbol : Thrown :=
  .obj (.value (.prim (.str "TypeError")))
    (.value (.prim (.str "Cannot convert a Symbol value to a string")))
    (some "TypeError: Cannot convert a Symbol value to a string")

/-- JavaScript truthiness: symbols and objects are truthy. -/
def JsProp.truthy : JsProp → Bool
  | .prim p => p.truthy
  | .symbol _ => true
  | .object _ => true

/-- The implicit conversion to a string of a template literal: it throws on
a symbol and on an object without conversion. -/
def JsProp.toStr : JsProp → Except Thrown String
  | .prim p => .ok p.toStr
  | .symbol _ => .error cannotConvertSymbol
  | .object (some s) => .ok s
  | .object none => .error cannotConvertObject

/-- The call `String(err)`: a symbol gives its descriptive string, an object
without conversion throws. -/
def Thrown.toStr : Thrown → Except Thrown String
  | .prim p => .ok p.toStr
  | .symbol description => .ok ("Symbol(" ++ description ++ ")")
  | .obj _ _ (some s) => .ok s
  | .obj _ _ none => .error cannotConvertObject

/-- The expression `err?.name`: `undefined` on `null` and `undefined`, and on
the other primitives and on symbols, which have no such property. -/
def Thrown.optName : Thrown → Except Thrown JsProp
  | .prim _ => .ok (.prim .undefined)
  | .symbol _ => .ok (.prim .undefined)
  | .obj name _ _ => name.read

/-- The expression `err?.message`. -/
def Thrown.optMessage : Thrown → Except Thrown JsProp
  | .prim _ => .ok (.prim .undefined)
  | .symbol _ => .ok (.prim .undefined)
  | .obj _ message _ => message.read

/-- The expression `a || b`. -/
def jsOr (a b : JsProp) : JsProp :=
  if a.truthy then a else b

/-- Source: `humanCameraError(err)`. The name is read, then the message;
`String(err)` is evaluated only when the message is falsy, and before the
names are compared; the template literal converts `name`, then `msg`. -/
def humanCameraError (err : Thrown) : Except Thrown String :=
  match err.optName with
  | .error e => .error e
  | .ok rawName =>
    let name := jsOr rawName (.prim (.str "Error"))
    match err.optMessage with
    | .error e => .error e
    | .ok rawMessage =>
      let msgOrThrows : Except Thrown JsProp :=
        if rawMessage.truthy then .ok rawMessage
        else
          match err.toStr with
          | .ok s => .ok (.prim (.str s))
          | .error e => .error e
      match msgOrThrows with
      | .error e => .error e
      | .ok msg =>
        if name = .prim (.str "NotAllowedError") then
          .ok "Permission blocked. Allow camera for localhost."
        else if name = .prim (.str "NotFoundError") then .ok "No camera found."
        else if name = .prim (.str "NotReadableError") then
          .ok "Camera is in use by another app (OBS/Discord/Zoom)."
        else if name = .prim (.str "OverconstrainedError") then
          .ok "Selected camera/constraints not supported."
        else
          match name.toStr with
          | .error e => .error e
          | .ok n =>
            match msg.toStr with
            | .error e => .error e
            | .ok m => .ok (n ++ ": " ++ m)

/-- The name is one of the four that `humanCameraError` maps to a fixed text. -/
def mappedName (name : JsProp) : Bool :=
  name = .prim (.str "NotAllowedError") || name = .prim (.str "NotFoundError") ||
    name = .prim (.str "NotReadableError") || name = .prim (.str "OverconstrainedError")

/-- The implicit conversion of the value to a string succeeds. -/
def JsProp.converts : JsProp → Bool
  | .prim _ => true
  | .symbol _ => false
  | .object str => str.isSome

/-- The reads and the conversions to a string that the `catch` block of
`startCamera()` performs on the value succeed: reading `name` and `message`,
`String(err)` when the message is missing or falsy, and, unless the name is
one of the four mapped names, the conversions of a truthy name and of a
truthy message in the template literal. Every primitive and every symbol
passes. -/
def Thrown.converts : Thrown → Bool
  | .prim _ => true
  | .symbol _ => true
  | .obj (.value name) (.value message) str =>
    (message.truthy || str.isSome) &&
      (mappedName name ||
        ((!name.truthy || name.converts) && (!message.truthy || message.converts)))
  | .obj _ _ _ => false

/-! ## The page and the platform -/

/-- A capture stream: its identity and the number of its tracks. -/
structure MediaStream where
  id : Nat
  ntracks : Nat
deriving DecidableEq, Repr

/-- A media track: the stream it belongs to and its index in it. -/
abbrev Track := Nat × Nat

/-- Source: `stream.getTracks()`. -/
def MediaStream.getTracks (st : MediaStream) : List Track :=
  (List.range st.ntracks).map (fun i => (st.id, i))

/-- An entry of `enumerateDevices()`. -/
structure Device where
  kind : String
  deviceId : String
  label : String
deriving DecidableEq, Repr

/-- An `<option>` of the camera selector. -/
structure SelectOption where
  value : String
  text : String
deriving DecidableEq, Repr

/-- The `video` member of the constraints passed to `getUserMedia`. -/
inductive VideoConstraint where
  | deviceExact (deviceId : String)
  | facingUser
deriving DecidableEq, Repr

/-- Where a suspended asynchronous call waits. -/
inductive Pc where
  | awaitGum (video : VideoConstraint)
  | awaitMeta
  | awaitEnum
  | populateOnly
deriving DecidableEq, Repr

/-- The state of the page: module variables, elements, platform resources and
the suspended asynchronous calls. -/
structure State where
  cvReady : Bool
  useFilter : Bool
  stream : Option MediaStream
  rafId : Option Nat
  statusText : String
  logLines : List String
  srcObject : Option MediaStream
  onloadedmetadata : Option Nat
  canvasWidth : Nat
  canvasHeight : Nat
  options : List SelectOption
  selected : String
  rafCounter : Nat
  rafPending : List Nat
  nextStream : Nat
  liveTracks : List Track
  cvNext : Nat
  cvLive : List Nat
  cvFreed : List Nat
  cvTimer : Bool
  calls : List (Nat × Pc)
  nextCall : Nat
deriving DecidableEq, Repr

/-- A synchronous run that may end by throwing: the state it leaves and the
thrown value, if any. -/
structure Outcome where
  state : State
  thrown : Option Thrown
deriving DecidableEq, Repr

/-- Source: `log(msg)`. -/
def log (msg : String) (s : State) : State :=
  { s with logLines := s.logLines ++ [msg] }

/-- Source: `setStatus(text)`. -/
def setStatus (text : String) (s : State) : State :=
  { s with statusText := text }

/-! ## Camera selector -/

/-- The option written by the `innerHTML` assignment of `populateCameraList`. -/
def defaultOption : SelectOption :=
  { value := "", text := "(default)" }

/-- The option built for `cam` at index `i` of `cams.forEach`:
`value = cam.deviceId`, text `cam.label || "Camera " + (i + 1)`. -/
def optionFor (cam : Device) (i : Nat) : SelectOption :=
  { value := cam.deviceId
    text := if cam.label != "" then cam.label else "Camera " ++ toString (i + 1) }

/-- The loop `cams.forEach((cam, i) => ... cameraSelect.appendChild(opt))`,
from index `i` on, over the children `opts` of the selector. -/
def appendOptions : List Device → Nat → List SelectOption → List SelectOption
  | [], _, opts => opts
  | cam :: rest, i, opts => appendOptions rest (i + 1) (opts ++ [optionFor cam i])

/-- Source: `populateCameraList()`, from the point where `enumerateDevices()`
has settled with `r` (a missing `navigator.mediaDevices`, a synchronous throw
and a rejection all enter the `catch` with the thrown value). -/
def populateCameraList (r : Except JsVal (List Device)) (s : State) : Outcome :=
  match r with
  | .ok devices =>
    let cams := devices.filter (fun d => d.kind = "videoinput")
    let s := { s with options := appendOptions cams 0 [defaultOption], selected := "" }
    ⟨log ("Detected " ++ toString cams.length ++ " camera device(s).") s, none⟩
  | .error err =>
    match err.message with
    | .ok m => ⟨log ("Could not enumerate devices: " ++ m.toStr) s, none⟩
    | .error typeError => ⟨s, some typeError.thrown⟩

/-! ## Stopping -/

/-- Source: `cancelAnimationFrame(h)`. -/
def cancelAnimationFrame (h : Nat) (s : State) : State :=
  { s with rafPending := s.rafPending.filter (fun x => x ≠ h) }

/-- Source: `t.stop()` on a track. -/
def stopTrack (t : Track) (s : State) : State :=
  { s with liveTracks := s.liveTracks.filter (fun x => x ≠ t) }

/-- Source: `stopCamera()`.  `if (rafId)` is false for `null` and for `0`. -/
def stopCamera (s : State) : State :=
  let s := match s.rafId with
    | some h => if h ≠ 0 then { cancelAnimationFrame h s with rafId := none } else s
    | none => s
  let s := match s.stream with
    | some st => { st.getTracks.foldl (fun acc t => stopTrack t acc) s with stream := none }
    | none => s
  let s := match s.srcObject with
    | some _ => { s with srcObject := none }
    | none => s
  log "Camera stopped." (setStatus "Camera stopped." s)

/-- Source: the click handler of `toggleCvBtn`. -/
def toggleFilter (s : State) : State :=
  let s := { s with useFilter := !s.useFilter }
  log ("CV filter: " ++ (if s.useFilter then "ON" else "OFF")) s

/-! ## The per-frame callback -/

/-- The calls into the vision library made by one frame. -/
inductive CvCall where
  | imread
  | newMat
  | cvtColorGray
  | canny
  | cvtColorRgba
  | imshow
deriving DecidableEq, Repr

/-- What the platform decides during one frame: the state of the video
element, whether `drawImage` throws, and which library call throws. -/
structure FrameEnv where
  readyState : Nat
  videoWidth : Nat
  videoHeight : Nat
  drawThrows : Option Thrown
  cvThrows : Option (CvCall × Thrown)
deriving DecidableEq, Repr

/-- The value thrown by the library call `c` in this frame, if it throws. -/
def FrameEnv.fails (fe : FrameEnv) (c : CvCall) : Option Thrown :=
  match fe.cvThrows with
  | some (c', e) => if c' = c then some e else none
  | none => none

/-- Source: `rafId = requestAnimationFrame(tick)`; handles count up from 1. -/
def scheduleTick (s : State) : State :=
  { s with
    rafCounter := s.rafCounter + 1
    rafPending := s.rafPending ++ [s.rafCounter + 1]
    rafId := some (s.rafCounter + 1) }

/-- A buffer handed out by the library (`cv.imread`, `new cv.Mat()`): its
handle is `s.cvNext`. -/
def cvAlloc (s : State) : State :=
  { s with cvNext := s.cvNext + 1, cvLive := s.cvLive ++ [s.cvNext] }

/-- Source: `mat.delete()`. -/
def cvDelete (m : Nat) (s : State) : State :=
  { s with cvLive := s.cvLive.filter (fun x => x ≠ m), cvFreed := s.cvFreed ++ [m] }

/-- The body of the `try` block of `tick`: the first of the four calls that
throws ends it. -/
def filterCalls (fe : FrameEnv) : Option Thrown :=
  match fe.fails .cvtColorGray with
  | some e => some e
  | none =>
    match fe.fails .canny with
    | some e => some e
    | none =>
      match fe.fails .cvtColorRgba with
      | some e => some e
      | none => fe.fails .imshow

/-- The part of `tick` after `drawImage`: the filter. -/
def tickFilter (fe : FrameEnv) (s : State) : Outcome :=
  if !s.cvReady || !s.useFilter then ⟨s, none⟩
  else
    match fe.fails .imread with
    | some e => ⟨s, some e⟩
    | none =>
      let src := s.cvNext
      let s := cvAlloc s
      match fe.fails .newMat with
      | some e => ⟨s, some e⟩
      | none =>
        let dst := s.cvNext
        let s := cvAlloc s
        let thrown := filterCalls fe
        ⟨cvDelete dst (cvDelete src s), thrown⟩

/-- The resize step of `tick`: when the canvas and the video differ in size,
`canvas.width = video.videoWidth || 640`, `canvas.height = video.videoHeight || 480`
and a log line. -/
def sizeCanvas (fe : FrameEnv) (s : State) : State :=
  if s.canvasWidth ≠ fe.videoWidth ∨ s.canvasHeight ≠ fe.videoHeight then
    let w := if fe.videoWidth ≠ 0 then fe.videoWidth else 640
    let h := if fe.videoHeight ≠ 0 then fe.videoHeight else 480
    log ("Canvas sized: " ++ toString w ++ "x" ++ toString h)
      { s with canvasWidth := w, canvasHeight := h }
  else s

/-- Source: `tick` of `startProcessingLoop`: schedule the next frame, return
if the video is not ready, size the canvas, draw, filter. -/
def tick (fe : FrameEnv) (s : State) : Outcome :=
  let s := scheduleTick s
  if fe.readyState < 2 then ⟨s, none⟩
  else
    let s := sizeCanvas fe s
    match fe.drawThrows with
    | some e => ⟨s, some e⟩
    | none => tickFilter fe s

/-- Source: `startProcessingLoop()`; its call of `tick` is the first frame. -/
def startProcessingLoop (fe : FrameEnv) (s : State) : Outcome :=
  let s := if !s.cvReady then
      log "OpenCV not ready yet—processing loop will still show raw video." s
    else s
  tick fe s

/-! ## Starting -/

/-- The stream a successful `getUserMedia` hands out, with `n` tracks. -/
def newStream (n : Nat) (s : State) : MediaStream :=
  { id := s.nextStream, ntracks := n }

/-- The platform side of a successful `getUserMedia`: the device is acquired
and every track of the new stream is live. -/
def acquireStream (n : Nat) (s : State) : State :=
  { s with
    nextStream := s.nextStream + 1
    liveTracks := s.liveTracks ++ (newStream n s).getTracks }

/-- The `video` constraint `startCamera` builds from `cameraSelect.value`. -/
def requestedVideo (s : State) : VideoConstraint :=
  if s.selected != "" then .deviceExact s.selected else .facingUser

/-- Source: `startCamera()` up to its first `await`: `stopCamera()`, the
status and log lines, and the call of `getUserMedia`. -/
def startCamera_begin (s : State) : State :=
  log "Requesting camera access…" (setStatus "Starting camera…" (stopCamera s))

/-- Source: the `catch` block of `startCamera()`. When `humanCameraError`
throws, the block ends there and the value leaves `startCamera()`. -/
def startCamera_catch (err : Thrown) (s : State) : Outcome :=
  match humanCameraError err with
  | .ok nice => ⟨setStatus "Camera error ❌" (log ("CAMERA ERROR: " ++ nice) s), none⟩
  | .error e => ⟨s, some e⟩

/-- Source: `startCamera()` from the resolution of `getUserMedia` with `st` to
the second `await`: `stream = st; video.srcObject = stream` and the metadata
handler of call `k` installed. -/
def startCamera_gotStream (k : Nat) (st : MediaStream) (s : State) : State :=
  { s with stream := some st, srcObject := some st, onloadedmetadata := some k }

/-- Source: `startCamera()` from the metadata event to the call of
`populateCameraList()`; `w` and `h` are `video.videoWidth` and
`video.videoHeight`. -/
def startCamera_gotMetadata (w h : Nat) (s : State) : State :=
  setStatus "Camera running ✅"
    (log ("Camera started: " ++ toString w ++ "x" ++ toString h) s)

/-- Source: `startCamera()` from the settling of `enumerateDevices()` inside
`populateCameraList()` to its end: the rest of `populateCameraList()`, then
`startProcessingLoop()`, anything thrown going to the `catch` block. -/
def startCamera_finish (r : Except JsVal (List Device)) (fe : FrameEnv) (s : State) : Outcome :=
  let o := populateCameraList r s
  match o.thrown with
  | some e => startCamera_catch e o.state
  | none =>
    let o := startProcessingLoop fe o.state
    match o.thrown with
    | some e => startCamera_catch e o.state
    | none => ⟨o.state, none⟩

/-- What the platform decides during one call of `startCamera()`. -/
structure StartEnv where
  gum : Except JsVal Nat
  videoWidth : Nat
  videoHeight : Nat
  enum : Except JsVal (List Device)
  frame : FrameEnv

/-- Source: `startCamera()`, run from call to completion with no other event
in between: the state it leaves and the value it rejects with, if any. -/
def startCamera (env : StartEnv) (s : State) : Outcome :=
  let s := startCamera_begin s
  match env.gum with
  | .error e => startCamera_catch e.thrown s
  | .ok n =>
    let st := newStream n s
    let s := startCamera_gotStream s.nextCall st (acquireStream n s)
    let s := startCamera_gotMetadata env.videoWidth env.videoHeight s
    startCamera_finish env.enum env.frame s

/-! ## The event loop -/

/-- The events of the single thread. -/
inductive Event where
  | clickStart
  | clickStop
  | clickToggle
  | selectCamera (value : String)
  | cvLoaded
  | gumResolve (k : Nat) (ntracks : Nat)
  | gumReject (k : Nat) (err : JsVal)
  | loadedmetadata (w h : Nat)
  | enumSettled (k : Nat) (r : Except JsVal (List Device)) (fe : FrameEnv)
  | frame (h : Nat) (fe : FrameEnv)

/-- Suspend call `k` at `pc`. -/
def suspendCall (k : Nat) (pc : Pc) (s : State) : State :=
  { s with calls := (k, pc) :: s.calls.filter (fun t => t.1 ≠ k) }

/-- Call `k` has returned. -/
def endCall (k : Nat) (s : State) : State :=
  { s with calls := s.calls.filter (fun t => t.1 ≠ k) }

/-- Source: the interval callback of `waitForCv()` on the poll that finds the
library. -/
def cvLoaded (s : State) : State :=
  if s.cvTimer then
    log "OpenCV.js ready."
      (setStatus "OpenCV loaded ✅ (click Start Camera)" { s with cvTimer := false, cvReady := true })
  else s

/-- One event, run to completion. An event that is not enabled (a settlement
for a call that does not wait for it, a frame for a handle that is not
scheduled, a metadata event with no source attached) changes nothing. What a
callback throws and what `startCamera()` rejects with reaches no handler: the
state stays as the callback left it. -/
def step (e : Event) (s : State) : State :=
  match e with
  | .clickStart =>
    suspendCall s.nextCall (.awaitGum (requestedVideo (stopCamera s)))
      { startCamera_begin s with nextCall := s.nextCall + 1 }
  | .clickStop => stopCamera s
  | .clickToggle => toggleFilter s
  | .selectCamera v =>
    if v ∈ s.options.map (fun o => o.value) then { s with selected := v } else s
  | .cvLoaded => cvLoaded s
  | .gumResolve k n =>
    match s.calls.lookup k with
    | some (.awaitGum _) =>
      suspendCall k .awaitMeta (startCamera_gotStream k (newStream n s) (acquireStream n s))
    | _ => s
  | .gumReject k err =>
    match s.calls.lookup k with
    | some (.awaitGum _) => endCall k (startCamera_catch err.thrown s).state
    | _ => s
  | .loadedmetadata w h =>
    match s.srcObject, s.onloadedmetadata with
    | some _, some k =>
      match s.calls.lookup k with
      | some .awaitMeta => suspendCall k .awaitEnum (startCamera_gotMetadata w h s)
      | _ => s
    | _, _ => s
  | .enumSettled k r fe =>
    match s.calls.lookup k with
    | some .awaitEnum => endCall k (startCamera_finish r fe s).state
    | some .populateOnly => endCall k (populateCameraList r s).state
    | _ => s
  | .frame h fe =>
    if h ∈ s.rafPending then (tick fe (cancelAnimationFrame h s)).state else s

/-- A sequence of events, in order. -/
def run : List Event → State → State
  | [], s => s
  | e :: es, s => run es (step e s)

/-- The state once the script has run at page load: the two log lines, the
first `populateCameraList()` waiting for the device list (call 0), and
`waitForCv()` polling. The page markup is not part of the sources: the
selector starts without options and the canvas at the default size. -/
def pageLoaded : State :=
  { cvReady := false
    useFilter := true
    stream := none
    rafId := none
    statusText := "Loading OpenCV…"
    logLines := ["Page loaded.", "Tip: Click Start Camera. If prompted, allow camera for localhost."]
    srcObject := none
    onloadedmetadata := none
    canvasWidth := 300
    canvasHeight := 150
    options := []
    selected := ""
    rafCounter := 0
    rafPending := []
    nextStream := 0
    liveTracks := []
    cvNext := 0
    cvLive := []
    cvFreed := []
    cvTimer := true
    calls := [(0, .populateOnly)]
    nextCall := 1 }

/-! ## Predicates of the statements -/

/-- The resources the script holds and the variables that name them: `rafId`,
the scheduled callbacks, the handle counter, `stream`, the live tracks and the
stream counter. -/
def resources (s : State) : Option Nat × List Nat × Nat × Option MediaStream × List Track × Nat :=
  (s.rafId, s.rafPending, s.rafCounter, s.stream, s.liveTracks, s.nextStream)

/-- The state `s` with another table of suspended calls. -/
def withCalls (calls : List (Nat × Pc)) (nextCall : Nat) (s : State) : State :=
  { s with calls := calls, nextCall := nextCall }

/-- The events of one call of `startCamera()` that nothing interrupts, `k`
being the number the call gets. -/
def startEvents (env : StartEnv) (k : Nat) : List Event :=
  match env.gum with
  | .error e => [.clickStart, .gumReject k e]
  | .ok n =>
    [.clickStart, .gumResolve k n, .loadedmetadata env.videoWidth env.videoHeight,
      .enumSettled k env.enum env.frame]

/-- The identities of the streams that still have a live track. -/
def liveStreams (s : State) : List Nat :=
  (s.liveTracks.map (fun t => t.1)).dedup

/-- The platform holds what the module variables record and nothing else:
the handle in `rafId` is a handle `requestAnimationFrame` can return (not 0),
the only callback that may be scheduled is the one in `rafId`, and the only
tracks that may be live are those of `stream`. -/
def Consistent (s : State) : Prop :=
  s.rafId ≠ some 0 ∧
  (∀ h ∈ s.rafPending, s.rafId = some h) ∧
  (∀ t ∈ s.liveTracks, ∃ st, s.stream = some st ∧ t ∈ st.getTracks)

/-- A render loop is running: the handle in `rafId` is scheduled. -/
def LoopRunning (s : State) : Prop :=
  ∃ h, s.rafId = some h ∧ h ∈ s.rafPending

/-- The event runs `stopCamera()`. -/
def Event.stops : Event → Bool
  | .clickStart => true
  | .clickStop => true
  | _ => false

/-- The event neither calls `startCamera()` or `stopCamera()` nor resumes a
suspended call: a frame, a click on the filter button, a choice in the
selector, the arrival of the library. -/
def Event.passive : Event → Bool
  | .frame _ _ => true
  | .clickToggle => true
  | .selectCamera _ => true
  | .cvLoaded => true
  | _ => false

/-- Exactly the stream `st` is held and it is the one in `stream`; at most one
callback is scheduled, the one in `rafId`, under a handle already issued. -/
def Holds (st : MediaStream) (s : State) : Prop :=
  s.stream = some st ∧ s.liveTracks = st.getTracks ∧ s.nextStream = st.id + 1 ∧
  ((s.rafId = none ∧ s.rafPending = []) ∨
    (∃ h, s.rafId = some h ∧ s.rafPending = [h] ∧ 0 < h ∧ h ≤ s.rafCounter))

/-- The event is a click on Start. -/
def Event.isStart : Event → Bool
  | .clickStart => true
  | _ => false

/-- The calls of `startCamera()` that are suspended at one of its `await`s. -/
def inFlight (s : State) : List (Nat × Pc) :=
  s.calls.filter (fun c => c.2 ≠ Pc.populateOnly)

/-- Along the events `es` from `s`, Start is clicked only when no earlier
`startCamera()` is still suspended. -/
def OneAtATime : List Event → State → Prop
  | [], _ => True
  | e :: es, s => (e.isStart = true → inFlight s = []) ∧ OneAtATime es (step e s)

/-- The invariant of the runs in which calls of `startCamera()` do not overlap:
the platform holds what the module variables record, at most one callback is
scheduled, at most one call is suspended, and while one is suspended nothing is
scheduled and, before its stream has arrived, `stream` is `null`. -/
def Orderly (s : State) : Prop :=
  Consistent s ∧ s.rafPending.length ≤ 1 ∧ (inFlight s).length ≤ 1 ∧
  ∀ c ∈ inFlight s, s.rafPending = [] ∧ ((∃ v, c.2 = Pc.awaitGum v) → s.stream = none)

/-- A frame in which the video is ready and nothing throws. -/
def quietFrame : FrameEnv :=
  { readyState := 4, videoWidth := 640, videoHeight := 480, drawThrows := none, cvThrows := none }

/-- A call of `startCamera()` in which everything succeeds: a stream with one
track, a 640x480 video, an empty device list, a quiet first frame. -/
def okEnv : StartEnv :=
  { gum := .ok 1, videoWidth := 640, videoHeight := 480, enum := .ok [], frame := quietFrame }

/-- A state with a camera running, reached from the loaded page by one click
on Start that succeeds and two frames: stream 0 with one live track, the loop
scheduled under handle 3. -/
def runningState : State :=
  run [.clickStart, .gumResolve 1 1, .loadedmetadata 640 480,
    .enumSettled 1 (.ok []) quietFrame, .frame 1 quietFrame, .frame 2 quietFrame] pageLoaded

/-- Two clicks on Start before the first camera request has settled, after
which both requests resolve and both calls run to their end. -/
def overlappingStarts : List Event :=
  [.clickStart, .clickStart,
    .gumResolve 1 1, .loadedmetadata 640 480, .enumSettled 1 (.ok []) quietFrame,
    .gumResolve 2 1, .loadedmetadata 640 480, .enumSettled 2 (.ok []) quietFrame]

/-- An audio input, as `enumerateDevices()` lists it. -/
def microphone : Device :=
  { kind := "audioinput", deviceId := "mic-1", label := "Microphone" }

/-- A video input. -/
def webcam : Device :=
  { kind := "videoinput", deviceId := "cam-1", label := "Webcam" }

/-- The page after its first `populateCameraList()` found one camera. -/
def listedState : State :=
  run [.enumSettled 0 (.ok [microphone, webcam]) quietFrame] pageLoaded

/-- The error of a browser without `navigator.mediaDevices`. -/
def notSupported : JsVal :=
  typeErrorReading .undefined "enumerateDevices"

/-- A call of `startCamera()` in which the user denies the camera. -/
def deniedEnv : StartEnv :=
  { okEnv with
    gum := .error (.obj (.str "NotAllowedError") (.str "Permission denied")
      "NotAllowedError: Permission denied") }

/-- The double click of `overlappingStarts`, then two calls of `startCamera()`
one after the other, each running to its end with a stream (calls 3 and 4). -/
def twoStartsAfterOverlap : List Event :=
  overlappingStarts ++ startEvents okEnv 3 ++ startEvents okEnv 4

/-- The double click of `overlappingStarts`, then a call of `startCamera()`
in which the user denies the camera (call 3). -/
def deniedAfterOverlap : List Event :=
  overlappingStarts ++ startEvents deniedEnv 3

/-- Two clicks on Start before the first request has settled; the first
request resolves, the second is denied. -/
def deniedWhileSuspended : List Event :=
  [.clickStart, .clickStart, .gumResolve 1 1,
    .gumReject 2 (.obj (.str "NotAllowedError") (.str "Permission denied")
      "NotAllowedError: Permission denied")]

/-- An object without prototype and without properties, as
`Object.create(null)` makes it: no `name`, no `message`, no `toString`. -/
def bareObject : Thrown :=
  .obj (.value (.prim .undefined)) (.value (.prim .undefined)) none

/-- The loaded page once the vision library has arrived. -/
def libraryLoaded : State :=
  run [.cvLoaded] pageLoaded

/-- A call of `startCamera()` in whose first frame `cv.imread` throws the bare
object. -/
def bareObjectEnv : StartEnv :=
  { okEnv with frame := { quietFrame with cvThrows := some (.imread, bareObject) } }

/-- A running camera with the library loaded and the filter on. -/
def filteringState : State :=
  run [.cvLoaded, .clickStart, .gumResolve 1 1, .loadedmetadata 640 480,
    .enumSettled 1 (.ok []) quietFrame] pageLoaded

/-- A frame in which `cv.imread` succeeds and `new cv.Mat()` throws. -/
def matFails : FrameEnv :=
  { quietFrame with cvThrows := some (.newMat, .prim (.num "6593456")) }

/-! ## Auxiliary facts -/

/-- Stopping the tracks `ts` one by one leaves live exactly the tracks outside `ts`. -/
theorem foldl_stopTrack (ts : List Track) (s : State) :
    ts.foldl (fun acc t => stopTrack t acc) s =
      { s with liveTracks := s.liveTracks.filter (fun x => x ∉ ts) } := by
  induction ts generalizing s with
  | nil => simp
  | cons t ts ih =>
    rw [List.foldl_cons, ih]
    simp only [stopTrack, List.filter_filter, State.mk.injEq, true_and, and_true]
    apply List.filter_congr
    intro x _
    simp only [List.mem_cons, not_or, ne_eq, Bool.decide_and]
    exact Bool.and_comm _ _

/-- The handle `stopCamera()` cancels: the one in `rafId`, unless it is falsy. -/
theorem stopCamera_eq (s : State) :
    stopCamera s =
      { s with
        rafId := match s.rafId with
          | some h => if h ≠ 0 then none else some h
          | none => none
        rafPending := match s.rafId with
          | some h => if h ≠ 0 then s.rafPending.filter (fun x => x ≠ h) else s.rafPending
          | none => s.rafPending
        liveTracks := match s.stream with
          | some st => s.liveTracks.filter (fun x => x ∉ st.getTracks)
          | none => s.liveTracks
        stream := none
        srcObject := none
        statusText := "Camera stopped."
        logLines := s.logLines ++ ["Camera stopped."] } := by
  rcases s with ⟨cvReady, useFilter, stream, rafId, statusText, logLines, srcObject, olm, cw, ch, opts, sel, rc, rp, ns, lt, cn, cl, cf, ct, calls, nt⟩
  cases rafId with
  | none =>
    cases stream <;> cases srcObject <;>
      simp [stopCamera, log, setStatus, foldl_stopTrack, cancelAnimationFrame]
  | some h =>
    by_cases hh : h = 0
    · cases stream <;> cases srcObject <;>
        simp [stopCamera, log, setStatus, foldl_stopTrack, cancelAnimationFrame, hh]
    · cases stream <;> cases srcObject <;>
        simp [stopCamera, log, setStatus, foldl_stopTrack, cancelAnimationFrame, hh]

theorem stopCamera_consistent (s : State) (hc : Consistent s) :
    (stopCamera s).rafId = none ∧ (stopCamera s).rafPending = [] ∧ (stopCamera s).liveTracks = [] := by
  obtain ⟨h0, hp, hl⟩ := hc
  rw [stopCamera_eq]
  refine ⟨?_, ?_, ?_⟩
  · cases hr : s.rafId with
    | none => simp
    | some h =>
      have hh : h ≠ 0 := by intro e; apply h0; simp [hr, e]
      simp [hh]
  · cases hr : s.rafId with
    | none =>
      simp only
      rw [List.eq_nil_iff_forall_not_mem]
      intro h hh
      have := hp h hh
      rw [hr] at this
      cases this
    | some h =>
      have hh : h ≠ 0 := by intro e; apply h0; simp [hr, e]
      simp only [hh, ne_eq, not_false_eq_true, if_true]
      rw [List.filter_eq_nil_iff]
      intro x hx
      have := hp x hx
      rw [hr] at this
      cases this
      simp
  · cases hst : s.stream with
    | none =>
      simp only
      rw [List.eq_nil_iff_forall_not_mem]
      intro t ht
      obtain ⟨st', h1, _⟩ := hl t ht
      rw [hst] at h1
      cases h1
    | some st =>
      simp only
      rw [List.filter_eq_nil_iff]
      intro t ht
      obtain ⟨st', h1, h2⟩ := hl t ht
      rw [hst] at h1
      cases h1
      simpa using h2
theorem resources_log (m : String) (s : State) : resources (log m s) = resources s := rfl

theorem resources_setStatus (m : String) (s : State) : resources (setStatus m s) = resources s := rfl

theorem resources_sizeCanvas (fe : FrameEnv) (s : State) :
    resources (sizeCanvas fe s) = resources s := by
  unfold sizeCanvas
  split <;> rfl

theorem resources_tickFilter (fe : FrameEnv) (s : State) :
    resources (tickFilter fe s).state = resources s := by
  by_cases hg : (!s.cvReady || !s.useFilter) = true
  · simp [tickFilter, hg]
  · cases h1 : fe.fails .imread <;> cases h2 : fe.fails .newMat <;>
      simp [tickFilter, hg, h1, h2, cvAlloc, cvDelete, resources]

/-- Whatever else happens in a frame, the next frame is scheduled and nothing
else changes among the resources. -/
theorem resources_tick (fe : FrameEnv) (s : State) :
    resources (tick fe s).state =
      (some (s.rafCounter + 1), s.rafPending ++ [s.rafCounter + 1], s.rafCounter + 1,
        s.stream, s.liveTracks, s.nextStream) := by
  by_cases hr : fe.readyState < 2
  · simp [tick, hr, scheduleTick, resources]
  · cases hd : fe.drawThrows with
    | some e =>
      simp only [tick, hr, hd, if_false, resources_sizeCanvas]
      rfl
    | none =>
      simp only [tick, hr, hd, if_false, resources_tickFilter, resources_sizeCanvas]
      rfl

theorem resources_populateCameraList (r : Except JsVal (List Device)) (s : State) :
    resources (populateCameraList r s).state = resources s := by
  cases r with
  | ok devices => rfl
  | error err =>
    unfold populateCameraList
    simp only
    split <;> rfl

theorem resources_startCamera_catch (e : Thrown) (s : State) :
    resources (startCamera_catch e s).state = resources s := by
  unfold startCamera_catch
  split <;> rfl

theorem resources_startProcessingLoop (fe : FrameEnv) (s : State) :
    resources (startProcessingLoop fe s).state =
      (some (s.rafCounter + 1), s.rafPending ++ [s.rafCounter + 1], s.rafCounter + 1,
        s.stream, s.liveTracks, s.nextStream) := by
  unfold startProcessingLoop
  simp only
  split <;> (rw [resources_tick]; try rfl)

/-- The last piece of `startCamera()` either starts the loop (one callback
scheduled) or leaves the resources as they are (when `populateCameraList()`
threw). -/
theorem resources_startCamera_finish (r : Except JsVal (List Device)) (fe : FrameEnv) (s : State) :
    resources (startCamera_finish r fe s).state = resources s ∨
    resources (startCamera_finish r fe s).state =
      (some (s.rafCounter + 1), s.rafPending ++ [s.rafCounter + 1], s.rafCounter + 1,
        s.stream, s.liveTracks, s.nextStream) := by
  have hp := resources_populateCameraList r s
  have hl := resources_startProcessingLoop fe (populateCameraList r s).state
  unfold startCamera_finish
  simp only
  cases h1 : (populateCameraList r s).thrown with
  | some e =>
    left
    simp only [resources_startCamera_catch, hp]
  | none =>
    right
    simp only
    have hp' : (populateCameraList r s).state.rafCounter = s.rafCounter ∧
        (populateCameraList r s).state.rafPending = s.rafPending ∧
        (populateCameraList r s).state.stream = s.stream ∧
        (populateCameraList r s).state.liveTracks = s.liveTracks ∧
        (populateCameraList r s).state.nextStream = s.nextStream := by
      simp only [resources, Prod.mk.injEq] at hp
      tauto
    obtain ⟨a, b, c, d, e⟩ := hp'
    rw [a, b, c, d, e] at hl
    split
    · rw [resources_startCamera_catch, hl]
    · rw [hl]

theorem resources_stopCamera (s : State) (hc : Consistent s) :
    resources (stopCamera s) = (none, [], s.rafCounter, none, [], s.nextStream) := by
  obtain ⟨a, b, c⟩ := stopCamera_consistent s hc
  simp only [resources, a, b, c]
  rw [stopCamera_eq]

/-- The state in which a complete `startCamera()` that obtained a stream of
`n` tracks calls `populateCameraList()`: only the new stream is held and no
callback is scheduled. -/
theorem resources_beforeEnum (s : State) (n k w h : Nat) (hc : Consistent s) :
    resources (startCamera_gotMetadata w h
      (startCamera_gotStream k (newStream n (startCamera_begin s))
        (acquireStream n (startCamera_begin s)))) =
      (none, [], s.rafCounter, some ⟨s.nextStream, n⟩,
        (MediaStream.mk s.nextStream n).getTracks, s.nextStream + 1) := by
  have h0 := resources_stopCamera s hc
  simp only [resources, Prod.mk.injEq] at h0
  obtain ⟨a1, a2, a3, a4, a5, a6⟩ := h0
  simp only [resources, startCamera_gotMetadata, startCamera_gotStream, acquireStream, newStream,
    startCamera_begin, log, setStatus, a1, a2, a3, a4, a5, a6, List.nil_append]

/-- A complete `startCamera()` that obtains a stream, from a consistent state:
the new stream alone is held, and the loop is scheduled once or (when
`populateCameraList()` threw) not at all. -/
theorem startCamera_holds (env : StartEnv) (s : State) (n : Nat)
    (hc : Consistent s) (hg : env.gum = .ok n) :
    Holds ⟨s.nextStream, n⟩ (startCamera env s).state ∧
    s.rafCounter ≤ (startCamera env s).state.rafCounter ∧
    ∀ h ∈ (startCamera env s).state.rafPending, s.rafCounter < h := by
  have hb := resources_beforeEnum s n (startCamera_begin s).nextCall env.videoWidth env.videoHeight hc
  unfold startCamera
  simp only [hg]
  generalize (startCamera_gotMetadata env.videoWidth env.videoHeight
      (startCamera_gotStream (startCamera_begin s).nextCall (newStream n (startCamera_begin s))
        (acquireStream n (startCamera_begin s)))) = sm at hb ⊢
  have hb' := hb
  simp only [resources, Prod.mk.injEq] at hb'
  obtain ⟨c1, c2, c3, c4, c5, c6⟩ := hb'
  rcases resources_startCamera_finish env.enum env.frame sm with h | h
  · rw [hb] at h
    simp only [resources, Prod.mk.injEq] at h
    obtain ⟨b1, b2, b3, b4, b5, b6⟩ := h
    refine ⟨⟨b4, b5, b6, Or.inl ⟨b1, b2⟩⟩, ?_, ?_⟩
    · rw [b3]
    · rw [b2]; simp
  · rw [c2, c3, c4, c5, c6] at h
    simp only [resources, Prod.mk.injEq] at h
    obtain ⟨b1, b2, b3, b4, b5, b6⟩ := h
    refine ⟨⟨b4, b5, b6, Or.inr ⟨s.rafCounter + 1, b1, ?_, ?_, ?_⟩⟩, ?_, ?_⟩
    · rw [b2]; simp
    · omega
    · omega
    · omega
    · rw [b2]; simp
theorem holds_congr (st : MediaStream) (s s' : State) (h : resources s' = resources s)
    (hh : Holds st s) : Holds st s' := by
  simp only [resources, Prod.mk.injEq] at h
  obtain ⟨b1, b2, b3, b4, b5, b6⟩ := h
  unfold Holds
  rw [b1, b2, b3, b4, b5, b6]
  exact hh

theorem holds_consistent (st : MediaStream) (s : State) (hh : Holds st s) : Consistent s := by
  obtain ⟨h1, h2, _, h4⟩ := hh
  refine ⟨?_, ?_, ?_⟩
  · rcases h4 with ⟨a, _⟩ | ⟨h, a, _, c, _⟩
    · simp [a]
    · rw [a]
      intro e
      cases e
      omega
  · intro h hp
    rcases h4 with ⟨_, b⟩ | ⟨h', a, b, _, _⟩
    · rw [b] at hp
      cases hp
    · rw [b] at hp
      simp only [List.mem_singleton] at hp
      rw [a, hp]
  · intro t ht
    exact ⟨st, h1, by rw [← h2]; exact ht⟩

/-- A passive event keeps the held stream and the single loop. -/
theorem step_passive_holds (st : MediaStream) (e : Event) (s : State)
    (hh : Holds st s) (he : e.passive = true) :
    Holds st (step e s) ∧ s.rafCounter ≤ (step e s).rafCounter := by
  cases e with
  | frame h fe =>
    by_cases hp : h ∈ s.rafPending
    · simp only [step, hp, if_true]
      have hr := resources_tick fe (cancelAnimationFrame h s)
      simp only [resources, Prod.mk.injEq] at hr
      obtain ⟨b1, b2, b3, b4, b5, b6⟩ := hr
      obtain ⟨h1, h2, h3, h4⟩ := hh
      have hcancel : (cancelAnimationFrame h s).rafPending = [] := by
        rcases h4 with ⟨_, b⟩ | ⟨h', _, b, _, _⟩
        · rw [b] at hp
          cases hp
        · rw [b] at hp
          simp only [List.mem_singleton] at hp
          simp [cancelAnimationFrame, b, hp]
      refine ⟨⟨?_, ?_, ?_, Or.inr ⟨s.rafCounter + 1, ?_, ?_, ?_, ?_⟩⟩, ?_⟩
      · rw [b4]; exact h1
      · rw [b5]; exact h2
      · rw [b6]; exact h3
      · rw [b1]; rfl
      · rw [b2, hcancel]; rfl
      · omega
      · rw [b3]; exact Nat.le_refl _
      · rw [b3]; exact Nat.le_succ _
    · simp only [step, hp, if_false]
      exact ⟨hh, Nat.le_refl _⟩
  | clickToggle => exact ⟨holds_congr st s _ rfl hh, Nat.le_refl _⟩
  | selectCamera v =>
    simp only [step]
    split
    · exact ⟨holds_congr st s _ rfl hh, Nat.le_refl _⟩
    · exact ⟨hh, Nat.le_refl _⟩
  | cvLoaded =>
    simp only [step, cvLoaded]
    split
    · exact ⟨holds_congr st s _ rfl hh, Nat.le_refl _⟩
    · exact ⟨hh, Nat.le_refl _⟩
  | clickStart => cases he
  | clickStop => cases he
  | gumResolve k n => cases he
  | gumReject k err => cases he
  | loadedmetadata w h => cases he
  | enumSettled k r fe => cases he

theorem run_passive_holds (st : MediaStream) (es : List Event) (s : State)
    (hh : Holds st s) (he : ∀ e ∈ es, e.passive = true) :
    Holds st (run es s) ∧ s.rafCounter ≤ (run es s).rafCounter := by
  induction es generalizing s with
  | nil => exact ⟨hh, Nat.le_refl _⟩
  | cons e es ih =>
    obtain ⟨h1, h2⟩ := step_passive_holds st e s hh (he e (List.mem_cons_self _ _))
    obtain ⟨h3, h4⟩ := ih (step e s) h1 (fun x hx => he x (List.mem_cons_of_mem _ hx))
    exact ⟨h3, Nat.le_trans h2 h4⟩
theorem mem_getTracks (st : MediaStream) (t : Track) :
    t ∈ st.getTracks ↔ t.1 = st.id ∧ t.2 < st.ntracks := by
  obtain ⟨a, b⟩ := t
  simp only [MediaStream.getTracks, List.mem_map, List.mem_range, Prod.mk.injEq]
  constructor
  · rintro ⟨i, hi, h1, h2⟩
    exact ⟨h1.symm, by rw [← h2]; exact hi⟩
  · rintro ⟨h1, h2⟩
    exact ⟨b, h2, h1.symm, rfl⟩

/-- When the live tracks are those of one stream with at least one track, that
stream is the only live one. -/
theorem liveStreams_of_holds (st : MediaStream) (s : State) (hl : s.liveTracks = st.getTracks) :
    liveStreams s ⊆ [st.id] ∧ (0 < st.ntracks → liveStreams s = [st.id]) := by
  have hsub : liveStreams s ⊆ [st.id] := by
    intro x hx
    simp only [liveStreams, List.mem_dedup, List.mem_map, hl] at hx
    obtain ⟨t, ht, rfl⟩ := hx
    rw [mem_getTracks] at ht
    simp [ht.1]
  refine ⟨hsub, ?_⟩
  intro hn
  have hmem : st.id ∈ liveStreams s := by
    simp only [liveStreams, List.mem_dedup, List.mem_map, hl]
    exact ⟨(st.id, 0), (mem_getTracks st _).2 ⟨rfl, hn⟩, rfl⟩
  have hnd : (liveStreams s).Nodup := List.nodup_dedup _
  generalize liveStreams s = l at hsub hmem hnd
  cases l with
  | nil => cases hmem
  | cons x xs =>
    have hx : x = st.id := by simpa using hsub (List.mem_cons_self _ _)
    have hxs : xs = [] := by
      rw [List.eq_nil_iff_forall_not_mem]
      intro y hy
      have hy' : y = st.id := by simpa using hsub (List.mem_cons_of_mem _ hy)
      rw [hy', ← hx] at hy
      exact (List.nodup_cons.1 hnd).1 hy
    rw [hxs, hx]

theorem pageLoaded_consistent : Consistent pageLoaded := by
  refine ⟨by decide, ?_, ?_⟩ <;> intro x hx <;> cases hx

theorem loopRunning_raf (s s' : State) (h1 : s'.rafId = s.rafId)
    (h2 : s'.rafPending = s.rafPending) (hl : LoopRunning s) : LoopRunning s' := by
  unfold LoopRunning
  rw [h1, h2]
  exact hl

theorem loopRunning_congr (s s' : State) (h : resources s' = resources s)
    (hl : LoopRunning s) : LoopRunning s' := by
  simp only [resources, Prod.mk.injEq] at h
  exact loopRunning_raf s s' h.1 h.2.1 hl

theorem loopRunning_scheduled (s s' : State)
    (h : resources s' = (some (s.rafCounter + 1), s.rafPending ++ [s.rafCounter + 1],
      s.rafCounter + 1, s.stream, s.liveTracks, s.nextStream)) : LoopRunning s' := by
  simp only [resources, Prod.mk.injEq] at h
  obtain ⟨b1, b2, _⟩ := h
  exact ⟨s.rafCounter + 1, b1, by rw [b2]; simp⟩

/-- An event that does not run `stopCamera()` keeps a running loop running. -/
theorem step_keeps_loop (e : Event) (s : State) (he : e.stops = false) (hl : LoopRunning s) :
    LoopRunning (step e s) := by
  cases e with
  | clickStart => cases he
  | clickStop => cases he
  | clickToggle => exact loopRunning_raf s _ rfl rfl hl
  | selectCamera v =>
    simp only [step]
    split
    · exact loopRunning_raf s _ rfl rfl hl
    · exact hl
  | cvLoaded =>
    simp only [step, cvLoaded]
    split
    · exact loopRunning_raf s _ rfl rfl hl
    · exact hl
  | gumResolve k n =>
    simp only [step]
    split
    · exact loopRunning_raf s _ rfl rfl hl
    · exact hl
  | gumReject k err =>
    simp only [step]
    split
    · exact loopRunning_congr s _ (resources_startCamera_catch err.thrown s) hl
    · exact hl
  | loadedmetadata w h =>
    simp only [step]
    split
    · split
      · exact loopRunning_raf s _ rfl rfl hl
      · exact hl
    · exact hl
  | enumSettled k r fe =>
    simp only [step]
    split
    · rcases resources_startCamera_finish r fe s with h | h
      · exact loopRunning_congr s _ h hl
      · exact loopRunning_scheduled s _ h
    · exact loopRunning_congr s _ (resources_populateCameraList r s) hl
    · exact hl
  | frame h fe =>
    simp only [step]
    split
    · exact loopRunning_scheduled (cancelAnimationFrame h s) _ (resources_tick fe _)
    · exact hl

theorem run_keeps_loop (es : List Event) (s : State) (he : ∀ e ∈ es, e.stops = false)
    (hl : LoopRunning s) : LoopRunning (run es s) := by
  induction es generalizing s with
  | nil => exact hl
  | cons e es ih =>
    exact ih (step e s) (fun x hx => he x (List.mem_cons_of_mem _ hx))
      (step_keeps_loop e s (he e (List.mem_cons_self _ _)) hl)
theorem appendOptions_eq (cams : List Device) (i : Nat) (opts : List SelectOption) :
    appendOptions cams i opts = opts ++ (cams.enumFrom i).map (fun p => optionFor p.2 p.1) := by
  induction cams generalizing i opts with
  | nil => simp [appendOptions]
  | cons cam rest ih => simp [appendOptions, ih, List.enumFrom]

theorem runningState_consistent : Consistent runningState := by
  have hl : runningState.liveTracks = [(0, 0)] := by decide
  have hs : runningState.stream = some ⟨0, 1⟩ := by decide
  refine ⟨by decide, by decide, ?_⟩
  intro t ht
  rw [hl] at ht
  simp only [List.mem_singleton] at ht
  exact ⟨⟨0, 1⟩, hs, by rw [ht]; decide⟩

/-- Unless `new cv.Mat()` throws, the filter part of a frame releases what it
obtained: the live buffers are those from before the frame, and the two
buffers of the frame, if obtained, are each released once. -/
theorem tickFilter_releases (fe : FrameEnv) (s : State)
    (hfresh : ∀ m ∈ s.cvLive, m < s.cvNext) (hm : fe.fails .newMat = none) :
    (tickFilter fe s).state.cvLive = s.cvLive ∧
    ((tickFilter fe s).state.cvFreed = s.cvFreed ∨
      (tickFilter fe s).state.cvFreed = s.cvFreed ++ [s.cvNext, s.cvNext + 1]) := by
  by_cases hg : (!s.cvReady || !s.useFilter) = true
  · simp [tickFilter, hg]
  · cases h1 : fe.fails .imread with
    | some e => simp [tickFilter, hg, h1]
    | none =>
      have e1 : s.cvLive.filter (fun x => decide (x ≠ s.cvNext)) = s.cvLive := by
        rw [List.filter_eq_self]
        intro m hmem
        have := hfresh m hmem
        simp only [ne_eq, decide_eq_true_eq]
        omega
      have e2 : s.cvLive.filter (fun x => decide (x ≠ s.cvNext + 1)) = s.cvLive := by
        rw [List.filter_eq_self]
        intro m hmem
        have := hfresh m hmem
        simp only [ne_eq, decide_eq_true_eq]
        omega
      simp only [tickFilter, hg, h1, hm, cvAlloc, cvDelete, List.filter_append, e1, e2]
      simp
theorem withCalls_sizeCanvas (X : List (Nat × Pc)) (Y : Nat) (fe : FrameEnv) (s : State) :
    sizeCanvas fe (withCalls X Y s) = withCalls X Y (sizeCanvas fe s) := by
  unfold sizeCanvas
  simp only [withCalls]
  split <;> rfl

theorem withCalls_tickFilter (X : List (Nat × Pc)) (Y : Nat) (fe : FrameEnv) (s : State) :
    tickFilter fe (withCalls X Y s) =
      ⟨withCalls X Y (tickFilter fe s).state, (tickFilter fe s).thrown⟩ := by
  by_cases hg : (!s.cvReady || !s.useFilter) = true
  · simp [tickFilter, hg, withCalls]
  · cases h1 : fe.fails .imread <;> cases h2 : fe.fails .newMat <;>
      simp [tickFilter, hg, h1, h2, cvAlloc, cvDelete, withCalls]

theorem withCalls_tick (X : List (Nat × Pc)) (Y : Nat) (fe : FrameEnv) (s : State) :
    tick fe (withCalls X Y s) = ⟨withCalls X Y (tick fe s).state, (tick fe s).thrown⟩ := by
  have h0 : scheduleTick (withCalls X Y s) = withCalls X Y (scheduleTick s) := rfl
  by_cases hr : fe.readyState < 2
  · simp [tick, hr, h0]
  · cases hd : fe.drawThrows with
    | some e => simp [tick, hr, hd, h0, withCalls_sizeCanvas]
    | none => simp [tick, hr, hd, h0, withCalls_sizeCanvas, withCalls_tickFilter]

theorem withCalls_startProcessingLoop (X : List (Nat × Pc)) (Y : Nat) (fe : FrameEnv)
    (s : State) :
    startProcessingLoop fe (withCalls X Y s) =
      ⟨withCalls X Y (startProcessingLoop fe s).state, (startProcessingLoop fe s).thrown⟩ := by
  unfold startProcessingLoop
  have h1 : (withCalls X Y s).cvReady = s.cvReady := rfl
  simp only [h1]
  split
  · exact withCalls_tick X Y fe (log _ s)
  · exact withCalls_tick X Y fe s

theorem withCalls_populateCameraList (X : List (Nat × Pc)) (Y : Nat)
    (r : Except JsVal (List Device)) (s : State) :
    populateCameraList r (withCalls X Y s) =
      ⟨withCalls X Y (populateCameraList r s).state, (populateCameraList r s).thrown⟩ := by
  cases r with
  | ok devices => rfl
  | error err =>
    unfold populateCameraList
    simp only
    split <;> rfl

theorem withCalls_startCamera_catch (X : List (Nat × Pc)) (Y : Nat) (e : Thrown) (s : State) :
    startCamera_catch e (withCalls X Y s) =
      ⟨withCalls X Y (startCamera_catch e s).state, (startCamera_catch e s).thrown⟩ := by
  unfold startCamera_catch
  split <;> rfl

theorem withCalls_startCamera_finish (X : List (Nat × Pc)) (Y : Nat)
    (r : Except JsVal (List Device)) (fe : FrameEnv) (s : State) :
    startCamera_finish r fe (withCalls X Y s) =
      ⟨withCalls X Y (startCamera_finish r fe s).state, (startCamera_finish r fe s).thrown⟩ := by
  unfold startCamera_finish
  simp only [withCalls_populateCameraList]
  cases h1 : (populateCameraList r s).thrown with
  | some e => exact withCalls_startCamera_catch X Y e _
  | none =>
    simp only [withCalls_startProcessingLoop]
    cases h2 : (startProcessingLoop fe (populateCameraList r s).state).thrown with
    | some e => exact withCalls_startCamera_catch X Y e _
    | none => rfl

theorem withCalls_stopCamera (X : List (Nat × Pc)) (Y : Nat) (s : State) :
    stopCamera (withCalls X Y s) = withCalls X Y (stopCamera s) := by
  rw [stopCamera_eq, stopCamera_eq]
  rfl

theorem stopCamera_calls (s : State) :
    (stopCamera s).calls = s.calls ∧ (stopCamera s).nextCall = s.nextCall := by
  rw [stopCamera_eq]
  exact ⟨rfl, rfl⟩

theorem filter_ne_idem (k : Nat) (l : List (Nat × Pc)) (pc : Pc) :
    ((k, pc) :: l.filter (fun t => t.1 ≠ k)).filter (fun t => t.1 ≠ k) =
      l.filter (fun t => t.1 ≠ k) := by
  simp [List.filter_filter]

/-- The event loop, given the events of one uninterrupted call, computes what
`startCamera` computes; the call is number `s.nextCall` and is gone from the
table at the end. -/
theorem run_startEvents (env : StartEnv) (s : State) :
    run (startEvents env s.nextCall) s =
      withCalls (s.calls.filter (fun t => t.1 ≠ s.nextCall)) (s.nextCall + 1)
        (startCamera env s).state := by
  have hlook : ∀ (pc : Pc) (l : List (Nat × Pc)),
      List.lookup s.nextCall ((s.nextCall, pc) :: l) = some pc := by
    intro pc l
    simp [List.lookup]
  obtain ⟨ht, hn⟩ := stopCamera_calls s
  have hbt : (startCamera_begin s).calls = s.calls := ht
  have hbn : (startCamera_begin s).nextCall = s.nextCall := hn
  have h1 : step .clickStart s =
      withCalls ((s.nextCall, .awaitGum (requestedVideo (stopCamera s))) ::
        s.calls.filter (fun t => t.1 ≠ s.nextCall)) (s.nextCall + 1) (startCamera_begin s) := by
    simp only [step, suspendCall, withCalls, hbt]
  cases hg : env.gum with
  | error e =>
    simp only [startEvents, hg, run, startCamera]
    rw [h1]
    have hl : List.lookup s.nextCall (withCalls
        ((s.nextCall, Pc.awaitGum (requestedVideo (stopCamera s))) ::
          s.calls.filter (fun t => t.1 ≠ s.nextCall))
        (s.nextCall + 1) (startCamera_begin s)).calls =
        some (Pc.awaitGum (requestedVideo (stopCamera s))) := hlook _ _
    simp only [step, hl, withCalls_startCamera_catch, endCall]
    simp only [withCalls, filter_ne_idem]
  | ok n =>
    simp only [startEvents, hg, run, startCamera]
    rw [h1, hbn]
    have h2 : step (.gumResolve s.nextCall n)
        (withCalls ((s.nextCall, .awaitGum (requestedVideo (stopCamera s))) ::
          s.calls.filter (fun t => t.1 ≠ s.nextCall)) (s.nextCall + 1) (startCamera_begin s)) =
        withCalls ((s.nextCall, .awaitMeta) :: s.calls.filter (fun t => t.1 ≠ s.nextCall))
          (s.nextCall + 1)
          (startCamera_gotStream s.nextCall (newStream n (startCamera_begin s))
            (acquireStream n (startCamera_begin s))) := by
      simp only [step, withCalls, hlook, suspendCall, startCamera_gotStream, acquireStream,
        newStream, filter_ne_idem]
    rw [h2]
    have h3 : step (.loadedmetadata env.videoWidth env.videoHeight)
        (withCalls ((s.nextCall, .awaitMeta) :: s.calls.filter (fun t => t.1 ≠ s.nextCall))
          (s.nextCall + 1)
          (startCamera_gotStream s.nextCall (newStream n (startCamera_begin s))
            (acquireStream n (startCamera_begin s)))) =
        withCalls ((s.nextCall, .awaitEnum) :: s.calls.filter (fun t => t.1 ≠ s.nextCall))
          (s.nextCall + 1)
          (startCamera_gotMetadata env.videoWidth env.videoHeight
            (startCamera_gotStream s.nextCall (newStream n (startCamera_begin s))
              (acquireStream n (startCamera_begin s)))) := by
      simp only [step, withCalls, hlook, suspendCall, startCamera_gotStream, startCamera_gotMetadata,
        log, setStatus, filter_ne_idem]
    rw [h3]
    have hl : List.lookup s.nextCall (withCalls
        ((s.nextCall, Pc.awaitEnum) :: s.calls.filter (fun t => t.1 ≠ s.nextCall))
        (s.nextCall + 1)
        (startCamera_gotMetadata env.videoWidth env.videoHeight
          (startCamera_gotStream s.nextCall (newStream n (startCamera_begin s))
            (acquireStream n (startCamera_begin s))))).calls = some Pc.awaitEnum := hlook _ _
    simp only [step, hl, withCalls_startCamera_finish, endCall]
    simp only [withCalls, filter_ne_idem]

/-! ## Calls of `startCamera()` that do not overlap -/

theorem lookup_mem (k : Nat) (pc : Pc) (l : List (Nat × Pc)) (h : l.lookup k = some pc) :
    (k, pc) ∈ l := by
  induction l with
  | nil => simp [List.lookup] at h
  | cons a l ih =>
    obtain ⟨a1, a2⟩ := a
    by_cases hk : k = a1
    · subst hk
      simp [List.lookup] at h
      simp [h]
    · have : (k == a1) = false := by simpa using hk
      simp only [List.lookup, this] at h
      exact List.mem_cons_of_mem _ (ih h)

theorem calls_tick (fe : FrameEnv) (s : State) : (tick fe s).state.calls = s.calls := by
  have h := withCalls_tick s.calls s.nextCall fe s
  have e : withCalls s.calls s.nextCall s = s := rfl
  rw [e] at h
  rw [h]
  rfl

theorem calls_startCamera_catch (e : Thrown) (s : State) :
    (startCamera_catch e s).state.calls = s.calls := by
  unfold startCamera_catch
  split <;> rfl

theorem calls_startCamera_finish (r : Except JsVal (List Device)) (fe : FrameEnv) (s : State) :
    (startCamera_finish r fe s).state.calls = s.calls := by
  have h := withCalls_startCamera_finish s.calls s.nextCall r fe s
  have e : withCalls s.calls s.nextCall s = s := rfl
  rw [e] at h
  rw [h]
  rfl

theorem calls_populateCameraList (r : Except JsVal (List Device)) (s : State) :
    (populateCameraList r s).state.calls = s.calls := by
  have h := withCalls_populateCameraList s.calls s.nextCall r s
  have e : withCalls s.calls s.nextCall s = s := rfl
  rw [e] at h
  rw [h]
  rfl

/-- Suspending the one call in flight at a new point leaves it the one call in flight. -/
theorem inFlight_suspendCall (k : Nat) (pc0 pc : Pc) (s s' : State) (hc : s'.calls = s.calls)
    (hm : (k, pc0) ∈ inFlight s) (hl : (inFlight s).length ≤ 1) (hp : pc ≠ Pc.populateOnly) :
    inFlight (suspendCall k pc s') = [(k, pc)] := by
  have hone : inFlight s = [(k, pc0)] := by
    generalize inFlight s = l at hm hl
    cases l with
    | nil => cases hm
    | cons a l =>
      cases l with
      | nil =>
        simp only [List.mem_singleton] at hm
        rw [hm]
      | cons b l => simp at hl
  have hf : (s.calls.filter (fun t => t.1 ≠ k)).filter (fun c => c.2 ≠ Pc.populateOnly) = [] := by
    rw [List.filter_comm]
    show (inFlight s).filter (fun t => t.1 ≠ k) = []
    rw [hone]
    simp
  simp only [inFlight, suspendCall, hc]
  rw [List.filter_cons]
  simp only [ne_eq, hp, not_false_eq_true, decide_True, if_true]
  rw [hf]

theorem inFlight_endCall (k : Nat) (s s' : State) (hc : s'.calls = s.calls) :
    ∀ c ∈ inFlight (endCall k s'), c ∈ inFlight s := by
  intro c hcm
  simp only [inFlight, endCall, hc, List.mem_filter] at hcm ⊢
  exact ⟨hcm.1.1, hcm.2⟩

theorem length_le_one_of_subset_filter (k : Nat) (s s' : State) (hc : s'.calls = s.calls)
    (hl : (inFlight s).length ≤ 1) : (inFlight (endCall k s')).length ≤ 1 := by
  have : inFlight (endCall k s') = (inFlight s).filter (fun t => t.1 ≠ k) := by
    simp only [inFlight, endCall, hc]
    rw [List.filter_comm]
  rw [this]
  exact Nat.le_trans (List.length_filter_le _ _) hl

theorem list_eq_singleton (l : List (Nat × Pc)) (c : Nat × Pc) (hm : c ∈ l)
    (hl : l.length ≤ 1) : l = [c] := by
  cases l with
  | nil => cases hm
  | cons a l =>
    cases l with
    | nil =>
      simp only [List.mem_singleton] at hm
      rw [hm]
    | cons b l => simp at hl

/-- Nothing scheduled, nothing live, no stream: an orderly state whatever is suspended,
as long as it is at most one call. -/
theorem orderly_idle (s : State) (c ns : Nat)
    (hr : resources s = (none, [], c, none, [], ns)) (hl : (inFlight s).length ≤ 1) :
    Orderly s := by
  simp only [resources, Prod.mk.injEq] at hr
  obtain ⟨b1, b2, _, b4, b5, _⟩ := hr
  refine ⟨⟨by rw [b1]; simp, ?_, ?_⟩, by rw [b2]; simp, hl, fun _ _ => ⟨b2, fun _ => b4⟩⟩
  · intro h hh
    rw [b2] at hh
    cases hh
  · intro t ht
    rw [b5] at ht
    cases ht

/-- A change that keeps the resources and suspends no new call keeps the state orderly. -/
theorem orderly_transport (s s' : State) (hr : resources s' = resources s)
    (hsub : ∀ c ∈ inFlight s', c ∈ inFlight s) (hl : (inFlight s').length ≤ 1)
    (hJ : Orderly s) : Orderly s' := by
  obtain ⟨hC, hP, _, hA⟩ := hJ
  simp only [resources, Prod.mk.injEq] at hr
  obtain ⟨b1, b2, _, b4, b5, _⟩ := hr
  refine ⟨?_, by rw [b2]; exact hP, hl, ?_⟩
  · unfold Consistent
    rw [b1, b2, b4, b5]
    exact hC
  · intro c hc
    rw [b2, b4]
    exact hA c (hsub c hc)

/-- The loop scheduled once, from a state with nothing scheduled and no call suspended
afterwards. -/
theorem orderly_scheduled (s s' : State) (hC : Consistent s) (hp : s.rafPending = [])
    (hr : resources s' = (some (s.rafCounter + 1), s.rafPending ++ [s.rafCounter + 1],
      s.rafCounter + 1, s.stream, s.liveTracks, s.nextStream))
    (hf : inFlight s' = []) : Orderly s' := by
  simp only [resources, Prod.mk.injEq, hp, List.nil_append] at hr
  obtain ⟨b1, b2, _, b4, b5, _⟩ := hr
  refine ⟨⟨?_, ?_, ?_⟩, by rw [b2]; simp, by rw [hf]; simp, ?_⟩
  · rw [b1]
    simp
  · intro h hh
    rw [b2] at hh
    simp only [List.mem_singleton] at hh
    rw [b1, hh]
  · rw [b4, b5]
    exact hC.2.2
  · intro c hc
    rw [hf] at hc
    cases hc

/-- Every event keeps the state orderly, provided Start is not clicked while a call of
`startCamera()` is suspended. -/
theorem step_orderly (e : Event) (s : State) (hJ : Orderly s)
    (hs : e.isStart = true → inFlight s = []) : Orderly (step e s) := by
  obtain ⟨hC, hP, hF, hA⟩ := hJ
  have hsame : ∀ s' : State, s'.calls = s.calls → inFlight s' = inFlight s := by
    intro s' h
    simp only [inFlight, h]
  cases e with
  | clickStart =>
    have hin := hs rfl
    have hr : resources (step Event.clickStart s) =
        (none, [], s.rafCounter, none, [], s.nextStream) := resources_stopCamera s hC
    apply orderly_idle (step Event.clickStart s) s.rafCounter s.nextStream hr
    have hcalls : (stopCamera s).calls = s.calls := (stopCamera_calls s).1
    simp only [step, inFlight, suspendCall, startCamera_begin, log, setStatus, hcalls]
    rw [List.filter_cons]
    simp only [ne_eq, not_false_eq_true, decide_True, if_true]
    rw [List.filter_comm]
    have : s.calls.filter (fun c => c.2 ≠ Pc.populateOnly) = [] := hin
    simp only [ne_eq] at this
    rw [this]
    simp
  | clickStop =>
    apply orderly_idle _ s.rafCounter s.nextStream (resources_stopCamera s hC)
    rw [hsame _ (stopCamera_calls s).1]
    exact hF
  | clickToggle =>
    exact orderly_transport s _ rfl (fun c hc => hc) hF ⟨hC, hP, hF, hA⟩
  | selectCamera v =>
    simp only [step]
    split
    · exact orderly_transport s _ rfl (fun c hc => hc) hF ⟨hC, hP, hF, hA⟩
    · exact ⟨hC, hP, hF, hA⟩
  | cvLoaded =>
    simp only [step, cvLoaded]
    split
    · exact orderly_transport s _ rfl (fun c hc => hc) hF ⟨hC, hP, hF, hA⟩
    · exact ⟨hC, hP, hF, hA⟩
  | gumResolve k n =>
    simp only [step]
    split
    · rename_i v hlook
      have hm : (k, Pc.awaitGum v) ∈ inFlight s := by
        simp only [inFlight, List.mem_filter]
        exact ⟨lookup_mem _ _ _ hlook, by simp⟩
      obtain ⟨hp0, hst⟩ := hA _ hm
      have hst0 : s.stream = none := hst ⟨v, rfl⟩
      have hlive : s.liveTracks = [] := by
        rw [List.eq_nil_iff_forall_not_mem]
        intro t ht
        obtain ⟨st, h1, _⟩ := hC.2.2 t ht
        rw [hst0] at h1
        cases h1
      have hin := inFlight_suspendCall k (Pc.awaitGum v) Pc.awaitMeta s
        (startCamera_gotStream k (newStream n s) (acquireStream n s)) rfl hm hF (by simp)
      refine ⟨⟨hC.1, ?_, ?_⟩, ?_, by rw [hin]; simp, ?_⟩
      · intro h hh
        exact hC.2.1 h hh
      · intro t ht
        refine ⟨newStream n s, rfl, ?_⟩
        have : t ∈ s.liveTracks ++ (newStream n s).getTracks := ht
        rw [hlive] at this
        simpa using this
      · exact hP
      · intro c hc
        rw [hin] at hc
        simp only [List.mem_singleton] at hc
        refine ⟨hp0, ?_⟩
        rintro ⟨w, hw⟩
        rw [hc] at hw
        cases hw
    · exact ⟨hC, hP, hF, hA⟩
  | gumReject k err =>
    simp only [step]
    split
    · have hr : resources (endCall k (startCamera_catch err.thrown s).state) = resources s :=
        resources_startCamera_catch err.thrown s
      have hcalls := calls_startCamera_catch err.thrown s
      exact orderly_transport s (endCall k (startCamera_catch err.thrown s).state) hr
        (inFlight_endCall k s _ hcalls)
        (length_le_one_of_subset_filter k s _ hcalls hF) ⟨hC, hP, hF, hA⟩
    · exact ⟨hC, hP, hF, hA⟩
  | loadedmetadata w h =>
    simp only [step]
    split
    · rename_i st k _ _
      split
      · rename_i hlook
        have hm : (k, Pc.awaitMeta) ∈ inFlight s := by
          simp only [inFlight, List.mem_filter]
          exact ⟨lookup_mem _ _ _ hlook, by simp⟩
        obtain ⟨hp0, _⟩ := hA _ hm
        have hin := inFlight_suspendCall k Pc.awaitMeta Pc.awaitEnum s
          (startCamera_gotMetadata w h s) rfl hm hF (by simp)
        refine ⟨hC, hP, by rw [hin]; simp, ?_⟩
        intro c hc
        rw [hin] at hc
        simp only [List.mem_singleton] at hc
        refine ⟨hp0, ?_⟩
        rintro ⟨v, hv⟩
        rw [hc] at hv
        cases hv
      · exact ⟨hC, hP, hF, hA⟩
    · exact ⟨hC, hP, hF, hA⟩
  | enumSettled k r fe =>
    simp only [step]
    split
    · rename_i hlook
      have hm : (k, Pc.awaitEnum) ∈ inFlight s := by
        simp only [inFlight, List.mem_filter]
        exact ⟨lookup_mem _ _ _ hlook, by simp⟩
      obtain ⟨hp0, _⟩ := hA _ hm
      have hone := list_eq_singleton _ _ hm hF
      have hcalls := calls_startCamera_finish r fe s
      have hin : inFlight (endCall k (startCamera_finish r fe s).state) = [] := by
        have : inFlight (endCall k (startCamera_finish r fe s).state) =
            (inFlight s).filter (fun t => t.1 ≠ k) := by
          simp only [inFlight, endCall, hcalls]
          rw [List.filter_comm]
        rw [this, hone]
        simp
      rcases resources_startCamera_finish r fe s with hr | hr
      · have hr' : resources (endCall k (startCamera_finish r fe s).state) = resources s := hr
        apply orderly_transport s (endCall k (startCamera_finish r fe s).state) hr' _
          (by rw [hin]; simp) ⟨hC, hP, hF, hA⟩
        intro c hc
        rw [hin] at hc
        cases hc
      · exact orderly_scheduled s (endCall k (startCamera_finish r fe s).state) hC hp0 hr hin
    · exact orderly_transport s _ (resources_populateCameraList r s)
        (inFlight_endCall k s _ (calls_populateCameraList r s))
        (length_le_one_of_subset_filter k s _ (calls_populateCameraList r s) hF)
        ⟨hC, hP, hF, hA⟩
    · exact ⟨hC, hP, hF, hA⟩
  | frame h fe =>
    simp only [step]
    split
    · rename_i hmem
      have hin : inFlight s = [] := by
        rw [List.eq_nil_iff_forall_not_mem]
        intro c hc
        have := (hA c hc).1
        rw [this] at hmem
        cases hmem
      have hpend : (cancelAnimationFrame h s).rafPending = [] := by
        simp only [cancelAnimationFrame]
        rw [List.filter_eq_nil_iff]
        intro x hx
        have h1 := hC.2.1 x hx
        have h2 := hC.2.1 h hmem
        rw [h1] at h2
        cases h2
        simp
      have hC' : Consistent (cancelAnimationFrame h s) := by
        refine ⟨hC.1, ?_, hC.2.2⟩
        intro x hx
        rw [hpend] at hx
        cases hx
      apply orderly_scheduled (cancelAnimationFrame h s) _ hC' hpend (resources_tick fe _)
      rw [hsame _ ((calls_tick fe (cancelAnimationFrame h s)).trans rfl)]
      exact hin
    · exact ⟨hC, hP, hF, hA⟩

theorem run_orderly (es : List Event) (s : State) (hJ : Orderly s) (ho : OneAtATime es s) :
    Orderly (run es s) := by
  induction es generalizing s with
  | nil => exact hJ
  | cons e es ih => exact ih (step e s) (step_orderly e s hJ ho.1) ho.2

theorem pageLoaded_orderly : Orderly pageLoaded := by
  refine ⟨pageLoaded_consistent, by decide, by decide, ?_⟩
  intro c hc
  have : inFlight pageLoaded = [] := by decide
  rw [this] at hc
  cases hc

theorem liveStreams_consistent (s : State) (hC : Consistent s) : (liveStreams s).length ≤ 1 := by
  cases hst : s.stream with
  | none =>
    have : s.liveTracks = [] := by
      rw [List.eq_nil_iff_forall_not_mem]
      intro t ht
      obtain ⟨st, h1, _⟩ := hC.2.2 t ht
      rw [hst] at h1
      cases h1
    simp [liveStreams, this]
  | some st =>
    have hsub : liveStreams s ⊆ [st.id] := by
      intro x hx
      simp only [liveStreams, List.mem_dedup, List.mem_map] at hx
      obtain ⟨t, ht, rfl⟩ := hx
      obtain ⟨st', h1, h2⟩ := hC.2.2 t ht
      rw [hst] at h1
      cases h1
      rw [mem_getTracks] at h2
      simp [h2.1]
    have hnd : (liveStreams s).Nodup := List.nodup_dedup _
    exact (List.Nodup.subperm hnd hsub).length_le

/-- As long as Start is not clicked while an earlier `startCamera()` is suspended, every
state reached from the loaded page has at most one live stream and at most one scheduled
callback. -/
theorem one_at_a_time_invariant (es : List Event) (ho : OneAtATime es pageLoaded) :
    (liveStreams (run es pageLoaded)).length ≤ 1 ∧
    (run es pageLoaded).rafPending.length ≤ 1 := by
  have hJ := run_orderly es pageLoaded pageLoaded_orderly ho
  exact ⟨liveStreams_consistent _ hJ.1, hJ.2.1⟩

/-! ## What the `catch` block of `startCamera()` can convert -/

theorem jsProp_toStr_converts (p : JsProp) : p.converts = true ↔ ∃ m, p.toStr = .ok m := by
  cases p with
  | prim p => simp [JsProp.converts, JsProp.toStr]
  | symbol d => simp [JsProp.converts, JsProp.toStr]
  | object o => cases o <;> simp [JsProp.converts, JsProp.toStr]

theorem mappedName_truthy (name : JsProp) (h : mappedName name = true) : name.truthy = true := by
  simp only [mappedName, Bool.or_eq_true, decide_eq_true_eq] at h
  rcases h with ((h | h) | h) | h <;> rw [h] <;> decide

theorem humanCameraError_mapped (name message : JsProp) (str : Option String)
    (h : mappedName name = true) :
    (∃ m, humanCameraError (.obj (.value name) (.value message) str) = .ok m) ↔
      (message.truthy || str.isSome) = true := by
  have ht := mappedName_truthy name h
  simp only [mappedName, Bool.or_eq_true, decide_eq_true_eq] at h
  simp only [humanCameraError, Thrown.optName, Thrown.optMessage, JsSlot.read, Thrown.toStr, jsOr, ht,
    if_true]
  by_cases hm : message.truthy = true
  · simp only [hm, if_true, Bool.true_or, iff_true]
    split_ifs <;> first | exact ⟨_, rfl⟩ | (exfalso; tauto)
  · cases str with
    | none => simp [hm]
    | some s =>
      simp only [hm, if_false, Option.isSome_some, Bool.or_true, iff_true]
      split_ifs <;> first | exact ⟨_, rfl⟩ | (exfalso; tauto)

theorem mappedName_jsOr (name : JsProp) :
    mappedName (jsOr name (.prim (.str "Error"))) = mappedName name := by
  unfold jsOr
  split
  · rfl
  · rename_i h
    cases hmn : mappedName name with
    | true => exact absurd (mappedName_truthy name hmn) h
    | false => decide

theorem humanCameraError_unmapped (name message : JsProp) (str : Option String)
    (h : mappedName name = false) :
    (∃ m, humanCameraError (.obj (.value name) (.value message) str) = .ok m) ↔
      ((message.truthy || str.isSome) &&
        ((!name.truthy || name.converts) && (!message.truthy || message.converts))) = true := by
  have h' := mappedName_jsOr name
  rw [h] at h'
  simp only [mappedName, Bool.or_eq_false_iff, decide_eq_false_iff_not] at h'
  obtain ⟨⟨⟨n1, n2⟩, n3⟩, n4⟩ := h'
  have hn := jsProp_toStr_converts (jsOr name (.prim (.str "Error")))
  have hm := jsProp_toStr_converts message
  have hname : (jsOr name (.prim (.str "Error"))).converts = (!name.truthy || name.converts) := by
    unfold jsOr
    by_cases ht : name.truthy = true
    · simp [ht]
    · simp [ht, JsProp.converts]
  rw [hname] at hn
  simp only [humanCameraError, Thrown.optName, Thrown.optMessage, JsSlot.read, Thrown.toStr,
    n1, n2, n3, n4, if_false]
  by_cases hmt : message.truthy = true
  · simp only [hmt, if_true, Bool.true_or, Bool.true_and, Bool.not_true, Bool.false_or,
      Bool.and_eq_true]
    rw [hn, hm]
    cases hx : (jsOr name (.prim (.str "Error"))).toStr <;> cases hy : message.toStr <;> simp
  · cases str with
    | none => simp [hmt]
    | some s =>
      simp only [hmt, if_false, Option.isSome_some, Bool.or_true, Bool.true_and,
        Bool.not_false, Bool.true_or, Bool.and_true]
      rw [hn]
      cases hx : (jsOr name (.prim (.str "Error"))).toStr <;> simp [JsProp.toStr]

/-- The values on which the `catch` block can build its message are exactly those on
which `humanCameraError` returns. -/
theorem humanCameraError_converts (err : Thrown) :
    err.converts = true ↔ ∃ m, humanCameraError err = .ok m := by
  cases err with
  | prim p => simp [Thrown.converts, humanCameraError, Thrown.optName, Thrown.optMessage, Thrown.toStr, jsOr, JsProp.truthy, JsPrim.truthy, JsProp.toStr]
  | symbol d => simp [Thrown.converts, humanCameraError, Thrown.optName, Thrown.optMessage, Thrown.toStr, jsOr, JsProp.truthy, JsPrim.truthy, JsProp.toStr]
  | obj name message str =>
    cases name with
    | throwing e => simp [Thrown.converts, humanCameraError, Thrown.optName, JsSlot.read]
    | value name =>
      cases message with
      | throwing e =>
        simp [Thrown.converts, humanCameraError, Thrown.optName, Thrown.optMessage, JsSlot.read]
      | value message =>
        cases hmn : mappedName name with
        | true =>
          rw [humanCameraError_mapped name message str hmn]
          simp [Thrown.converts, hmn]
        | false =>
          rw [humanCameraError_unmapped name message str hmn]
          simp [Thrown.converts, hmn]

/-- What the browser throws always converts. -/
theorem platform_converts (v : JsVal) : v.thrown.converts = true := by
  cases v with
  | prim p => rfl
  | obj name message str => simp [JsVal.thrown, Thrown.converts, JsProp.converts]

/-- The `catch` block on a value that converts: the message is logged, the status set,
nothing is thrown. -/
theorem startCamera_catch_converts (e : Thrown) (s : State) (h : e.converts = true) :
    ∃ m, humanCameraError e = .ok m ∧
      startCamera_catch e s =
        ⟨setStatus "Camera error ❌" (log ("CAMERA ERROR: " ++ m) s), none⟩ := by
  obtain ⟨m, hm⟩ := (humanCameraError_converts e).1 h
  exact ⟨m, hm, by simp only [startCamera_catch, hm]⟩

/-- The `catch` block on a value that does not convert: it throws and nothing is shown. -/
theorem startCamera_catch_throws (e : Thrown) (s : State) (h : e.converts = false) :
    ∃ t, startCamera_catch e s = ⟨s, some t⟩ := by
  cases hh : humanCameraError e with
  | ok m =>
    have := (humanCameraError_converts e).2 ⟨m, hh⟩
    rw [h] at this
    cases this
  | error t => exact ⟨t, by simp only [startCamera_catch, hh]⟩

theorem tickFilter_thrown_congr (fe : FrameEnv) (s s' : State) (h1 : s'.cvReady = s.cvReady)
    (h2 : s'.useFilter = s.useFilter) : (tickFilter fe s').thrown = (tickFilter fe s).thrown := by
  unfold tickFilter
  rw [h1, h2]
  split
  · rfl
  · split
    · rfl
    · split <;> rfl

theorem sizeCanvas_flags (fe : FrameEnv) (s : State) :
    (sizeCanvas fe s).cvReady = s.cvReady ∧ (sizeCanvas fe s).useFilter = s.useFilter := by
  unfold sizeCanvas
  split <;> exact ⟨rfl, rfl⟩

/-- What a frame throws depends on the state only through `cvReady` and `useFilter`. -/
theorem tick_thrown_congr (fe : FrameEnv) (s s' : State) (h1 : s'.cvReady = s.cvReady)
    (h2 : s'.useFilter = s.useFilter) : (tick fe s').thrown = (tick fe s).thrown := by
  unfold tick
  simp only
  split
  · rfl
  · split
    · rfl
    · apply tickFilter_thrown_congr
      · rw [(sizeCanvas_flags fe _).1, (sizeCanvas_flags fe _).1]
        exact h1
      · rw [(sizeCanvas_flags fe _).2, (sizeCanvas_flags fe _).2]
        exact h2

theorem startProcessingLoop_thrown (fe : FrameEnv) (s s' : State) (h1 : s'.cvReady = s.cvReady)
    (h2 : s'.useFilter = s.useFilter) :
    (startProcessingLoop fe s').thrown = (tick fe s).thrown := by
  unfold startProcessingLoop
  simp only
  split
  · exact tick_thrown_congr fe s _ h1 h2
  · exact tick_thrown_congr fe s _ h1 h2

theorem populateCameraList_flags (r : Except JsVal (List Device)) (s : State) :
    (populateCameraList r s).state.cvReady = s.cvReady ∧
    (populateCameraList r s).state.useFilter = s.useFilter := by
  cases r with
  | ok devices => exact ⟨rfl, rfl⟩
  | error err =>
    unfold populateCameraList
    simp only
    split <;> exact ⟨rfl, rfl⟩

/-- All `populateCameraList()` can throw is the `TypeError` of reading `message` on `null`
or `undefined`. -/
theorem populateCameraList_thrown (r : Except JsVal (List Device)) (s : State) (e : Thrown)
    (h : (populateCameraList r s).thrown = some e) :
    (r = .error (.prim .null) ∧ e = (typeErrorReading .null "message").thrown) ∨
    (r = .error (.prim .undefined) ∧ e = (typeErrorReading .undefined "message").thrown) := by
  cases r with
  | ok devices => cases h
  | error err =>
    cases err with
    | prim p =>
      cases p with
      | null =>
        left
        simp only [populateCameraList, JsVal.message, Option.some.injEq] at h
        exact ⟨rfl, h.symm⟩
      | undefined =>
        right
        simp only [populateCameraList, JsVal.message, Option.some.injEq] at h
        exact ⟨rfl, h.symm⟩
      | bool b => cases h
      | num n => cases h
      | str t => cases h
    | obj name message str => cases h

/-- The state in which `startCamera()` calls `populateCameraList()` has the flags of the
state it was called in. -/
theorem beforeEnum_flags (s : State) (n k w h : Nat) :
    (startCamera_gotMetadata w h
      (startCamera_gotStream k (newStream n (startCamera_begin s))
        (acquireStream n (startCamera_begin s)))).cvReady = s.cvReady ∧
    (startCamera_gotMetadata w h
      (startCamera_gotStream k (newStream n (startCamera_begin s))
        (acquireStream n (startCamera_begin s)))).useFilter = s.useFilter := by
  have h0 : (stopCamera s).cvReady = s.cvReady ∧ (stopCamera s).useFilter = s.useFilter := by
    rw [stopCamera_eq]
    exact ⟨rfl, rfl⟩
  exact h0

/-- When `populateCameraList()` does not throw, what `startCamera()` does after
`getUserMedia` resolved is decided by what the first frame throws. -/
theorem startCamera_first_frame (env : StartEnv) (s : State) (n : Nat) (hg : env.gum = .ok n)
    (h1 : env.enum ≠ .error (.prim .null)) (h2 : env.enum ≠ .error (.prim .undefined)) :
    ∃ s', ((tick env.frame s).thrown = none → startCamera env s = ⟨s', none⟩) ∧
      ∀ e, (tick env.frame s).thrown = some e → startCamera env s = startCamera_catch e s' := by
  unfold startCamera
  simp only [hg]
  generalize hsB : (startCamera_gotMetadata env.videoWidth env.videoHeight
      (startCamera_gotStream (startCamera_begin s).nextCall (newStream n (startCamera_begin s))
        (acquireStream n (startCamera_begin s)))) = sB
  have hf := beforeEnum_flags s n (startCamera_begin s).nextCall env.videoWidth env.videoHeight
  rw [hsB] at hf
  have hpf := populateCameraList_flags env.enum sB
  have hp : (populateCameraList env.enum sB).thrown = none := by
    cases hh : (populateCameraList env.enum sB).thrown with
    | none => rfl
    | some e =>
      rcases populateCameraList_thrown env.enum sB e hh with ⟨a, _⟩ | ⟨a, _⟩
      · exact absurd a h1
      · exact absurd a h2
  have ht := startProcessingLoop_thrown env.frame s (populateCameraList env.enum sB).state
    (hpf.1.trans hf.1) (hpf.2.trans hf.2)
  refine ⟨(startProcessingLoop env.frame (populateCameraList env.enum sB).state).state, ?_, ?_⟩
  · intro h
    rw [← ht] at h
    simp only [startCamera_finish, hp, h]
  · intro e h
    rw [← ht] at h
    simp only [startCamera_finish, hp, h]

theorem humanCameraError_of_mapped (err : Thrown) (x : String) (hc : err.converts = true)
    (hx : mappedName (.prim (.str x)) = true) (hn : err.optName = .ok (.prim (.str x))) :
    humanCameraError err =
      (if x = "NotAllowedError" then .ok "Permission blocked. Allow camera for localhost."
      else if x = "NotFoundError" then .ok "No camera found."
      else if x = "NotReadableError" then
        .ok "Camera is in use by another app (OBS/Discord/Zoom)."
      else .ok "Selected camera/constraints not supported.") := by
  cases err with
  | prim p => cases hn
  | symbol d => cases hn
  | obj name message str =>
    cases name with
    | throwing e => cases hn
    | value name =>
      cases message with
      | throwing e => simp [Thrown.converts] at hc
      | value message =>
        simp only [Thrown.optName, JsSlot.read, Except.ok.injEq] at hn
        subst hn
        have ht := mappedName_truthy _ hx
        have hx' := hx
        simp only [mappedName, Bool.or_eq_true, decide_eq_true_eq, JsProp.prim.injEq,
          JsPrim.str.injEq] at hx'
        simp only [Thrown.converts, hx, Bool.true_or, Bool.and_true] at hc
        simp only [humanCameraError, Thrown.optName, Thrown.optMessage, JsSlot.read,
          Thrown.toStr, jsOr, ht, if_true, JsProp.prim.injEq, JsPrim.str.injEq]
        by_cases hm : message.truthy = true
        · simp only [hm, if_true]
          split_ifs <;> first | rfl | (exfalso; tauto)
        · cases str with
          | none => simp [hm] at hc
          | some s =>
            simp only [hm, if_false]
            split_ifs <;> first | rfl | (exfalso; tauto)

theorem humanCameraError_of_unmapped (err : Thrown) (name message : JsProp) (n m : String)
    (hname : err.optName = .ok name) (hmessage : err.optMessage = .ok message)
    (hmn : mappedName name = false)
    (hn : (jsOr name (.prim (.str "Error"))).toStr = .ok n)
    (hm : (if message.truthy then message.toStr else err.toStr) = .ok m) :
    humanCameraError err = .ok (n ++ ": " ++ m) := by
  have h' := mappedName_jsOr name
  rw [hmn] at h'
  simp only [mappedName, Bool.or_eq_false_iff, decide_eq_false_iff_not] at h'
  obtain ⟨⟨⟨n1, n2⟩, n3⟩, n4⟩ := h'
  by_cases hmt : message.truthy = true
  · simp only [hmt, if_true] at hm
    simp only [humanCameraError, hname, hmessage, hmt, if_true, n1, n2, n3, n4, if_false, hn, hm]
  · have hmt' : message.truthy = false := by simpa using hmt
    rw [hmt'] at hm
    simp only [Bool.false_eq_true, if_false] at hm
    simp only [humanCameraError, hname, hmessage, hmt', Bool.false_eq_true, if_false, hm,
      n1, n2, n3, n4, hn]
    rfl

theorem getLast_log (m : String) (s : State) :
    (setStatus "Camera error ❌" (log m s)).logLines.getLast? = some m := by
  simp [setStatus, log]

/-! ## Starting from a consistent state -/

/-- From a state in which the platform holds what the module variables
record, a complete `startCamera()` that obtains a stream, then any frames,
filter toggles, selector choices and the arrival of the library, then a second
complete `startCamera()` that obtains a stream: the final state has the second
stream in `stream` and its tracks as the only live tracks (every track of the
first stream is stopped), at most one scheduled callback, which is the one in
`rafId`, and no callback that was scheduled before the second call. -/
theorem startCamera_twice_of_consistent (s : State) (env1 env2 : StartEnv) (n1 n2 : Nat) (mid : List Event)
    (hc : Consistent s) (h1 : env1.gum = .ok n1) (h2 : env2.gum = .ok n2)
    (hmid : ∀ e ∈ mid, e.passive = true) :
    (startCamera env1 s).state.stream = some ⟨s.nextStream, n1⟩ ∧
    (startCamera env2 (run mid (startCamera env1 s).state)).state.stream = some ⟨s.nextStream + 1, n2⟩ ∧
    (startCamera env2 (run mid (startCamera env1 s).state)).state.liveTracks =
      (MediaStream.mk (s.nextStream + 1) n2).getTracks ∧
    (∀ t ∈ (MediaStream.mk s.nextStream n1).getTracks,
      t ∉ (startCamera env2 (run mid (startCamera env1 s).state)).state.liveTracks) ∧
    liveStreams (startCamera env2 (run mid (startCamera env1 s).state)).state ⊆ [s.nextStream + 1] ∧
    (0 < n2 → liveStreams (startCamera env2 (run mid (startCamera env1 s).state)).state = [s.nextStream + 1]) ∧
    (startCamera env2 (run mid (startCamera env1 s).state)).state.rafPending.length ≤ 1 ∧
    (∀ h ∈ (startCamera env2 (run mid (startCamera env1 s).state)).state.rafPending,
      (startCamera env2 (run mid (startCamera env1 s).state)).state.rafId = some h) ∧
    (∀ h ∈ (startCamera env1 s).state.rafPending,
      h ∉ (startCamera env2 (run mid (startCamera env1 s).state)).state.rafPending) ∧
    (∀ h ∈ (run mid (startCamera env1 s).state).rafPending,
      h ∉ (startCamera env2 (run mid (startCamera env1 s).state)).state.rafPending) := by
  obtain ⟨H1, _, _⟩ := startCamera_holds env1 s n1 hc h1
  obtain ⟨Hm, hcm⟩ := run_passive_holds _ mid _ H1 hmid
  obtain ⟨H2, _, hf2⟩ := startCamera_holds env2 _ n2 (holds_consistent _ _ Hm) h2
  have hns : (run mid (startCamera env1 s).state).nextStream = s.nextStream + 1 := Hm.2.2.1
  rw [hns] at H2
  generalize (startCamera env1 s).state = s1 at *
  generalize run mid s1 = sm at *
  generalize (startCamera env2 sm).state = s2 at *
  obtain ⟨a1, a2, _, a4⟩ := H2
  obtain ⟨l1, l2⟩ := liveStreams_of_holds _ s2 a2
  have old1 : ∀ h ∈ s1.rafPending, h ≤ sm.rafCounter := by
    intro h hh
    rcases H1.2.2.2 with ⟨_, b⟩ | ⟨h', _, b, _, d⟩
    · rw [b] at hh
      cases hh
    · rw [b] at hh
      simp only [List.mem_singleton] at hh
      omega
  have oldm : ∀ h ∈ sm.rafPending, h ≤ sm.rafCounter := by
    intro h hh
    rcases Hm.2.2.2 with ⟨_, b⟩ | ⟨h', _, b, _, d⟩
    · rw [b] at hh
      cases hh
    · rw [b] at hh
      simp only [List.mem_singleton] at hh
      omega
  refine ⟨H1.1, a1, a2, ?_, l1, l2, ?_, ?_, ?_, ?_⟩
  · intro t ht hl
    rw [a2] at hl
    rw [mem_getTracks] at ht hl
    have := ht.1
    have := hl.1
    simp only at *
    omega
  · rcases a4 with ⟨_, b⟩ | ⟨h', _, b, _, _⟩ <;> simp [b]
  · intro h hh
    rcases a4 with ⟨_, b⟩ | ⟨h', a, b, _, _⟩
    · rw [b] at hh
      cases hh
    · rw [b] at hh
      simp only [List.mem_singleton] at hh
      rw [a, hh]
  · intro h hh hh2
    have := old1 h hh
    have := hf2 h hh2
    omega
  · intro h hh hh2
    have := oldm h hh
    have := hf2 h hh2
    omega


/-- From a state in which the platform holds what the module variables
record (a running camera included), a `startCamera()` whose `getUserMedia`
fails with an error named `NotAllowedError` ends with `stream` and `rafId`
`null`, no live track, no scheduled callback, the log line
"CAMERA ERROR: Permission blocked. Allow camera for localhost." last, and the
status "Camera error ❌". -/
theorem startCamera_denied_of_consistent (env : StartEnv) (s : State) (message : JsPrim)
    (str : String) (hc : Consistent s)
    (hd : env.gum = .error (.obj (.str "NotAllowedError") message str)) :
    (startCamera env s).state.stream = none ∧ (startCamera env s).state.rafId = none ∧
    (startCamera env s).state.rafPending = [] ∧ (startCamera env s).state.liveTracks = [] ∧
    (startCamera env s).state.srcObject = none ∧
    (startCamera env s).state.logLines = s.logLines ++ ["Camera stopped.", "Requesting camera access…",
      "CAMERA ERROR: " ++ "Permission blocked. Allow camera for localhost."] ∧
    (startCamera env s).state.statusText = "Camera error ❌" := by
  have h0 := resources_stopCamera s hc
  simp only [resources, Prod.mk.injEq] at h0
  obtain ⟨a1, a2, a3, a4, a5, a6⟩ := h0
  have hm : humanCameraError (JsVal.obj (.str "NotAllowedError") message str).thrown =
      .ok "Permission blocked. Allow camera for localhost." := by
    rw [humanCameraError_of_mapped (JsVal.obj (.str "NotAllowedError") message str).thrown
      "NotAllowedError" (platform_converts _) (by decide) rfl]
    rfl
  simp only [startCamera, hd, startCamera_catch, startCamera_begin, log, setStatus, hm, a1, a2, a4, a5]
  rw [stopCamera_eq]
  simp

/-! ## The claims -/

/-- C1 at the failing input: the session state left by the double click of
`overlappingStarts` (stream 0 live and in no variable, handle 1 scheduled and
in no variable); there `startCamera()` is called and runs to its end with a
stream (call 3), then is called again and runs to its end with a stream
(call 4). The final state has two live streams, 0 and 3, of which only
stream 3 is in `stream`, and two scheduled callbacks, handles 1 and 4, of
which only 4 is in `rafId`. The function `startCamera` applied twice to that
state gives the same. -/
theorem two_starts_after_overlap :
    liveStreams (run twoStartsAfterOverlap pageLoaded) = [0, 3] ∧
    (run twoStartsAfterOverlap pageLoaded).stream = some ⟨3, 1⟩ ∧
    (run twoStartsAfterOverlap pageLoaded).rafPending = [1, 4] ∧
    (run twoStartsAfterOverlap pageLoaded).rafId = some 4 ∧
    liveStreams
      (startCamera okEnv (startCamera okEnv (run overlappingStarts pageLoaded)).state).state =
      [0, 3] ∧
    (startCamera okEnv (startCamera okEnv (run overlappingStarts pageLoaded)).state).state.rafPending =
      [1, 4] := by
  decide

/-- C2 at the failing trace: two clicks on Start before the first request has
settled; both requests resolve and both calls finish. When the second device
is acquired (after the first five events) stream 0 is live and handle 1 is
scheduled; at the end streams 0 and 1 are both live, only stream 1 is in
`stream`, and two callbacks (handles 1 and 2) are scheduled, only handle 2
being in `rafId`; a click on Stop then leaves stream 0 live and handle 1
scheduled. -/
theorem overlapping_starts_leak :
    liveStreams (run (overlappingStarts.take 5) pageLoaded) = [0] ∧
    (run (overlappingStarts.take 5) pageLoaded).rafPending = [1] ∧
    liveStreams (run overlappingStarts pageLoaded) = [0, 1] ∧
    (run overlappingStarts pageLoaded).stream = some ⟨1, 1⟩ ∧
    (run overlappingStarts pageLoaded).rafPending = [1, 2] ∧
    (run overlappingStarts pageLoaded).rafId = some 2 ∧
    liveStreams (run (overlappingStarts ++ [.clickStop]) pageLoaded) = [0] ∧
    (run (overlappingStarts ++ [.clickStop]) pageLoaded).rafPending = [1] := by
  decide

/-- C3. With a handle in `rafId` that `requestAnimationFrame` can have
returned (not 0), `stopCamera()` ends with `stream`, `rafId` and
`video.srcObject` all `null`, the callback of `rafId` no longer scheduled and
every track of the previous stream stopped; when the three were `null` already
it cancels no callback and stops no track; and a second call changes nothing
but the log, which gets one more line. (`stopCamera` is a total function: no
call in it can throw.) -/
theorem stopCamera_spec (s : State) (h0 : s.rafId ≠ some 0) :
    (stopCamera s).stream = none ∧ (stopCamera s).rafId = none ∧
    (stopCamera s).srcObject = none ∧
    (∀ h, s.rafId = some h → h ∉ (stopCamera s).rafPending) ∧
    (∀ st, s.stream = some st → ∀ t ∈ st.getTracks, t ∉ (stopCamera s).liveTracks) ∧
    (s.stream = none → s.rafId = none → s.srcObject = none →
      (stopCamera s).rafPending = s.rafPending ∧ (stopCamera s).liveTracks = s.liveTracks ∧
      (stopCamera s).stream = s.stream ∧ (stopCamera s).rafId = s.rafId ∧
      (stopCamera s).srcObject = s.srcObject) ∧
    stopCamera (stopCamera s) =
      { stopCamera s with logLines := (stopCamera s).logLines ++ ["Camera stopped."] } := by
  rw [stopCamera_eq (stopCamera s), stopCamera_eq s]
  rcases s with ⟨cvReady, useFilter, stream, rafId, statusText, logLines, srcObject, olm, cw, ch, opts, sel, rc, rp, ns, lt, cn, cl, cf, ct, calls, nt⟩
  cases rafId with
  | none =>
    cases stream with
    | none =>
      simp only [true_and, and_true]
      simp
      intro hsrc
      exact hsrc.symm
    | some st =>
      simp
      intro a b hab _
      exact hab
  | some h =>
    have hh : h ≠ 0 := by intro e; apply h0; simp [e]
    cases stream with
    | none => simp [hh]
    | some st =>
      simp [hh]
      intro a b hab _
      exact hab

/-- Witness for C3: stopping the running camera. -/
theorem stopCamera_spec_witness :
    runningState.rafId ≠ some 0 ∧ (stopCamera runningState).stream = none ∧
    (stopCamera runningState).rafId = none ∧ (stopCamera runningState).srcObject = none :=
  ⟨by decide, (stopCamera_spec runningState (by decide)).1,
    (stopCamera_spec runningState (by decide)).2.1,
    (stopCamera_spec runningState (by decide)).2.2.1⟩

/-- C4 at the failing inputs. In the session state left by the double click
of `overlappingStarts`, `startCamera()` is called and the user denies the
camera: the message "Permission blocked. Allow camera for localhost." is
shown and `stream` is `null`, but the track of stream 0 is still live and
handle 1 is still scheduled. And when Start is clicked twice, the first
request resolves and the second is denied, the denied call ends with stream 0
in `stream` and live. -/
theorem denied_start_after_overlap :
    (run deniedAfterOverlap pageLoaded).logLines.getLast? =
      some "CAMERA ERROR: Permission blocked. Allow camera for localhost." ∧
    (run deniedAfterOverlap pageLoaded).stream = none ∧
    (run deniedAfterOverlap pageLoaded).liveTracks = [(0, 0)] ∧
    (run deniedAfterOverlap pageLoaded).rafPending = [1] ∧
    (startCamera deniedEnv (run overlappingStarts pageLoaded)).state.liveTracks = [(0, 0)] ∧
    (startCamera deniedEnv (run overlappingStarts pageLoaded)).state.rafPending = [1] ∧
    (run deniedWhileSuspended pageLoaded).logLines.getLast? =
      some "CAMERA ERROR: Permission blocked. Allow camera for localhost." ∧
    (run deniedWhileSuspended pageLoaded).stream = some ⟨0, 1⟩ ∧
    (run deniedWhileSuspended pageLoaded).liveTracks = [(0, 0)] := by
  decide

/-- C5, as stated, fails: the library is loaded, the filter on, and in the
first frame `cv.imread` throws an object without prototype. The `catch` block
of `startCamera()` throws on `String(err)`, `startCamera()` rejects, and no
error is shown: the status stays "Camera running ✅" and the log has no
"CAMERA ERROR" line. -/
theorem startCamera_rejects_bare_object :
    humanCameraError bareObject = .error cannotConvertObject ∧
    (startCamera bareObjectEnv libraryLoaded).thrown = some cannotConvertObject ∧
    (startCamera bareObjectEnv libraryLoaded).state.statusText = "Camera running ✅" ∧
    (startCamera bareObjectEnv libraryLoaded).state.logLines =
      ["Page loaded.", "Tip: Click Start Camera. If prompted, allow camera for localhost.",
        "OpenCV.js ready.", "Camera stopped.", "Requesting camera access…",
        "Camera started: 640x480", "Detected 0 camera device(s).", "Canvas sized: 640x480"] := by
  refine ⟨rfl, ?_, ?_, ?_⟩ <;> decide

/-- C5, amended. The `catch` block of `startCamera()` builds a message for
exactly the values on which the reads and the conversions to a string it
performs succeed (`Thrown.converts`: every primitive, `null` and `undefined`
included, every symbol, every value the browser throws, and every object
whose `name` and `message` can be read, whose `String(err)` succeeds when its
message is missing or falsy and whose truthy name and message, unless the
name is one of the four mapped names, are not symbols or objects without
conversion). For these, `humanCameraError` gives
the four fixed texts for the four names and otherwise `name: message`, with
`name` defaulting to "Error" and `message` to the string form of the value;
whatever `getUserMedia`, `populateCameraList()` or the first frame throws is
caught, "CAMERA ERROR: " and the message are appended to the log, the status
becomes "Camera error" followed by " ❌", and `startCamera()` does not
reject; a value of the first frame that is not of this kind makes it
reject. -/
theorem startCamera_catches (err : Thrown) :
    (err.converts = true ↔ ∃ m, humanCameraError err = .ok m) ∧
    (err.converts = true → err.optName = .ok (.prim (.str "NotAllowedError")) →
      humanCameraError err = .ok "Permission blocked. Allow camera for localhost.") ∧
    (err.converts = true → err.optName = .ok (.prim (.str "NotFoundError")) →
      humanCameraError err = .ok "No camera found.") ∧
    (err.converts = true → err.optName = .ok (.prim (.str "NotReadableError")) →
      humanCameraError err = .ok "Camera is in use by another app (OBS/Discord/Zoom).") ∧
    (err.converts = true → err.optName = .ok (.prim (.str "OverconstrainedError")) →
      humanCameraError err = .ok "Selected camera/constraints not supported.") ∧
    (∀ name message n m, err.optName = .ok name → err.optMessage = .ok message →
      mappedName name = false →
      (jsOr name (.prim (.str "Error"))).toStr = .ok n →
      (if message.truthy then message.toStr else err.toStr) = .ok m →
      humanCameraError err = .ok (n ++ ": " ++ m)) ∧
    humanCameraError (.prim .null) = .ok "Error: null" ∧
    humanCameraError (.prim .undefined) = .ok "Error: undefined" ∧
    humanCameraError (.prim (.num "1e+21")) = .ok "Error: 1e+21" ∧
    (∀ v : JsVal, v.thrown.converts = true) ∧
    (∀ env s v, env.gum = .error v →
      (startCamera env s).thrown = none ∧
      ∃ m, humanCameraError v.thrown = .ok m ∧
        (startCamera env s).state.logLines =
          (startCamera_begin s).logLines ++ ["CAMERA ERROR: " ++ m] ∧
        (startCamera env s).state.statusText = "Camera error" ++ " ❌") ∧
    (∀ env s n p, env.gum = .ok n → env.enum = .error (.prim p) →
      p = .null ∨ p = .undefined →
      (startCamera env s).thrown = none ∧
      (startCamera env s).state.logLines.getLast? =
        some ("CAMERA ERROR: TypeError: Cannot read properties of " ++ p.toStr ++
          " (reading \x27message\x27)") ∧
      (startCamera env s).state.statusText = "Camera error" ++ " ❌") ∧
    (∀ env s n, env.gum = .ok n → env.enum ≠ .error (.prim .null) →
      env.enum ≠ .error (.prim .undefined) → (tick env.frame s).thrown = some err →
      (err.converts = true →
        (startCamera env s).thrown = none ∧
        ∃ m, humanCameraError err = .ok m ∧
          (startCamera env s).state.logLines.getLast? = some ("CAMERA ERROR: " ++ m) ∧
          (startCamera env s).state.statusText = "Camera error" ++ " ❌") ∧
      (err.converts = false → ∃ t, (startCamera env s).thrown = some t)) ∧
    (∀ env s, (∀ e, (tick env.frame s).thrown = some e → e.converts = true) →
      (startCamera env s).thrown = none) := by
  refine ⟨humanCameraError_converts err, ?_, ?_, ?_, ?_, humanCameraError_of_unmapped err,
    rfl, rfl, rfl, platform_converts, ?_, ?_, ?_, ?_⟩
  · intro hc hn
    rw [humanCameraError_of_mapped err "NotAllowedError" hc (by decide) hn]
    rfl
  · intro hc hn
    rw [humanCameraError_of_mapped err "NotFoundError" hc (by decide) hn]
    rfl
  · intro hc hn
    rw [humanCameraError_of_mapped err "NotReadableError" hc (by decide) hn]
    rfl
  · intro hc hn
    rw [humanCameraError_of_mapped err "OverconstrainedError" hc (by decide) hn]
    rfl
  · intro env s v hg
    obtain ⟨m, hm, hc⟩ := startCamera_catch_converts v.thrown (startCamera_begin s)
      (platform_converts v)
    have he : startCamera env s = startCamera_catch v.thrown (startCamera_begin s) := by
      simp only [startCamera, hg]
    rw [he, hc]
    exact ⟨rfl, m, hm, rfl, rfl⟩
  · intro env s n p hg he hp
    have hn : humanCameraError (typeErrorReading .null "message").thrown =
        .ok "TypeError: Cannot read properties of null (reading \x27message\x27)" := rfl
    have hu : humanCameraError (typeErrorReading .undefined "message").thrown =
        .ok "TypeError: Cannot read properties of undefined (reading \x27message\x27)" := rfl
    rcases hp with rfl | rfl
    · simp only [startCamera, hg, he, startCamera_finish, populateCameraList, JsVal.message,
        startCamera_catch, hn]
      exact ⟨trivial, getLast_log _ _, rfl⟩
    · simp only [startCamera, hg, he, startCamera_finish, populateCameraList, JsVal.message,
        startCamera_catch, hu]
      exact ⟨trivial, getLast_log _ _, rfl⟩
  · intro env s n hg h1 h2 ht
    obtain ⟨s', _, hs'⟩ := startCamera_first_frame env s n hg h1 h2
    refine ⟨?_, ?_⟩
    · intro hconv
      obtain ⟨m, hm, hc⟩ := startCamera_catch_converts err s' hconv
      rw [hs' err ht, hc]
      exact ⟨rfl, m, hm, getLast_log _ _, rfl⟩
    · intro hconv
      obtain ⟨t, hc⟩ := startCamera_catch_throws err s' hconv
      rw [hs' err ht, hc]
      exact ⟨t, rfl⟩
  · intro env s hall
    cases hg : env.gum with
    | error v =>
      obtain ⟨m, _, hc⟩ := startCamera_catch_converts v.thrown (startCamera_begin s)
        (platform_converts v)
      have he : startCamera env s = startCamera_catch v.thrown (startCamera_begin s) := by
        simp only [startCamera, hg]
      rw [he, hc]
    | ok n =>
      by_cases h1 : env.enum = .error (.prim .null)
      · simp only [startCamera, hg, h1, startCamera_finish, populateCameraList, JsVal.message]
        obtain ⟨m, _, hc⟩ := startCamera_catch_converts (typeErrorReading .null "message").thrown
          (startCamera_gotMetadata env.videoWidth env.videoHeight
            (startCamera_gotStream (startCamera_begin s).nextCall
              (newStream n (startCamera_begin s)) (acquireStream n (startCamera_begin s))))
          (platform_converts _)
        rw [hc]
      · by_cases h2 : env.enum = .error (.prim .undefined)
        · simp only [startCamera, hg, h2, startCamera_finish, populateCameraList, JsVal.message]
          obtain ⟨m, _, hc⟩ := startCamera_catch_converts
            (typeErrorReading .undefined "message").thrown
            (startCamera_gotMetadata env.videoWidth env.videoHeight
              (startCamera_gotStream (startCamera_begin s).nextCall
                (newStream n (startCamera_begin s)) (acquireStream n (startCamera_begin s))))
            (platform_converts _)
          rw [hc]
        · obtain ⟨s', hnone, hsome⟩ := startCamera_first_frame env s n hg h1 h2
          cases ht : (tick env.frame s).thrown with
          | none => rw [hnone ht]
          | some e =>
            obtain ⟨m, _, hc⟩ := startCamera_catch_converts e s' (hall e ht)
            rw [hsome e ht, hc]

/-- C6, as stated, fails: enumeration returns two devices, one of them a
microphone, and the selector gets two options, not three. -/
theorem populateCameraList_skips_other_kinds :
    (populateCameraList (.ok [microphone, webcam]) pageLoaded).state.options =
      [defaultOption, ⟨"cam-1", "Webcam"⟩] ∧
    (populateCameraList (.ok [microphone, webcam]) pageLoaded).state.options.length ≠
      [microphone, webcam].length + 1 := by
  decide

/-- C6, amended. Whatever the selector held before, after a successful
`populateCameraList()` it holds the default option (empty value) first, then
one option per device of kind `videoinput`, in enumeration order, each with
the device id as value and the label (or "Camera i+1") as text: one more
option than there are video inputs in the list. -/
theorem populateCameraList_options (devices : List Device) (s : State) :
    (populateCameraList (.ok devices) s).thrown = none ∧
    (populateCameraList (.ok devices) s).state.options =
      defaultOption ::
        ((devices.filter (fun d => d.kind = "videoinput")).enum.map
          (fun p => optionFor p.2 p.1)) ∧
    (populateCameraList (.ok devices) s).state.options.length =
      (devices.filter (fun d => d.kind = "videoinput")).length + 1 ∧
    defaultOption.value = "" ∧
    (populateCameraList (.ok devices) s).state.options.tail.map (fun o => o.value) =
      (devices.filter (fun d => d.kind = "videoinput")).map (fun d => d.deviceId) := by
  have h : (populateCameraList (.ok devices) s).state.options =
      defaultOption ::
        ((devices.filter (fun d => d.kind = "videoinput")).enum.map
          (fun p => optionFor p.2 p.1)) := by
    simp [populateCameraList, log, appendOptions_eq, List.enum]
  refine ⟨rfl, h, ?_, rfl, ?_⟩
  · rw [h]
    simp
  · rw [h]
    simp only [List.tail_cons, List.map_map]
    have : ((fun o : SelectOption => o.value) ∘ fun p : Nat × Device => optionFor p.2 p.1) =
        (fun d : Device => d.deviceId) ∘ Prod.snd := by
      funext p
      rfl
    rw [this, ← List.map_map, List.enum_map_snd]

/-- C7, as stated, fails: the selector lists a camera, enumeration then fails,
and the camera is still listed. -/
theorem populateCameraList_failure_keeps_options :
    (⟨"cam-1", "Webcam"⟩ : SelectOption) ∈
      (populateCameraList (.error notSupported) listedState).state.options ∧
    (populateCameraList (.error notSupported) listedState).state.options = listedState.options := by
  decide

/-- C7, amended. When enumeration fails with a thrown value other than `null`
and `undefined`, `populateCameraList()` does not throw, appends the line
"Could not enumerate devices: " followed by the message of the value to the
log, and changes nothing else: the selector keeps the options it had. -/
theorem populateCameraList_failure (err : JsVal) (s : State)
    (h1 : err ≠ .prim .null) (h2 : err ≠ .prim .undefined) :
    (populateCameraList (.error err) s).thrown = none ∧
    (populateCameraList (.error err) s).state =
      log ("Could not enumerate devices: " ++ err.optMessage.toStr) s ∧
    (populateCameraList (.error err) s).state.options = s.options := by
  cases err with
  | prim p =>
    cases p with
    | null => exact absurd rfl h1
    | undefined => exact absurd rfl h2
    | bool b => exact ⟨rfl, rfl, rfl⟩
    | num n => exact ⟨rfl, rfl, rfl⟩
    | str t => exact ⟨rfl, rfl, rfl⟩
  | obj name message str => exact ⟨rfl, rfl, rfl⟩

/-- Witness for C7: enumeration is not supported, one camera was listed. -/
theorem populateCameraList_failure_witness :
    notSupported ≠ .prim .null ∧ notSupported ≠ .prim .undefined ∧
    (populateCameraList (.error notSupported) listedState).thrown = none ∧
    (populateCameraList (.error notSupported) listedState).state.options = listedState.options :=
  ⟨by decide, by decide,
    (populateCameraList_failure notSupported listedState (by decide) (by decide)).1,
    (populateCameraList_failure notSupported listedState (by decide) (by decide)).2.2⟩

/-- C8 at the failing frame: the camera runs with the filter on, `cv.imread`
hands out buffer 2 and `new cv.Mat()` throws; the frame ends with buffer 2
live and never released. -/
theorem tick_leaks_source_buffer :
    (step (.frame 1 matFails) filteringState).cvLive = [2] ∧
    2 ∉ (step (.frame 1 matFails) filteringState).cvFreed ∧
    filteringState.cvLive = [] := by
  decide

/-- C9. One click on the filter button negates `useFilter` and changes nothing
else but the log (not the stream, not `rafId`, not the scheduled callbacks, not
the canvas); two clicks leave `useFilter` as it was. -/
theorem toggleFilter_twice (s : State) :
    (step .clickToggle (step .clickToggle s)).useFilter = s.useFilter ∧
    (step .clickToggle s).useFilter = (!s.useFilter) ∧
    (step .clickToggle s).stream = s.stream ∧
    (step .clickToggle s).rafId = s.rafId ∧
    (step .clickToggle s).rafPending = s.rafPending ∧
    { step .clickToggle s with useFilter := s.useFilter, logLines := s.logLines } = s := by
  simp [step, toggleFilter, log]

/-- C10. Every run of `tick`, whatever the rest of the frame does (video not
ready, raw draw, filtered draw, an exception from `drawImage` or from any call
of the library), stores in `rafId` the handle of one newly scheduled callback
and schedules nothing else; fired as the only scheduled callback it leaves
exactly one scheduled callback; and after it, through any sequence of events
that does not run `stopCamera()`, the callback in `rafId` stays scheduled. -/
theorem tick_always_reschedules (fe : FrameEnv) (s : State) :
    (tick fe s).state.rafId = some (s.rafCounter + 1) ∧
    (tick fe s).state.rafPending = s.rafPending ++ [s.rafCounter + 1] ∧
    (∀ h, s.rafPending = [h] →
      (step (.frame h fe) s).rafPending = [s.rafCounter + 1] ∧
      (step (.frame h fe) s).rafId = some (s.rafCounter + 1)) ∧
    (∀ es : List Event, (∀ e ∈ es, e.stops = false) → LoopRunning (run es (tick fe s).state)) := by
  have ht := resources_tick fe s
  have hloop := loopRunning_scheduled s _ ht
  simp only [resources, Prod.mk.injEq] at ht
  refine ⟨ht.1, ht.2.1, ?_, ?_⟩
  · intro h hp
    have hm : h ∈ s.rafPending := by rw [hp]; simp
    have hr := resources_tick fe (cancelAnimationFrame h s)
    simp only [resources, Prod.mk.injEq] at hr
    simp only [step, hm, if_true]
    rw [hr.1, hr.2.1]
    simp [cancelAnimationFrame, hp]
  · intro es hes
    exact run_keeps_loop es _ hes hloop

end SecurityCamera
